import Mathlib

/-!
Verification of the prefetch-and-display suggestion cache engine of the
voice-autocomplete repository.

The JavaScript source is shallowly embedded as follows.

* JS strings are lists of Unicode code points (`Str := List Nat`).
  `String.prototype.trim` is `trimStr` (the JS whitespace class restricted to
  its ASCII members, which is the fragment exercised by transcript text), and
  `String.prototype.toLowerCase` is `toLowerStr` (ASCII case folding, the
  fragment relevant to the case-insensitivity questions studied here).
* A JS `Map` is an association list in insertion order (`mapGet`, `mapSet`,
  `mapHas`, `mapDelete` mirror `get`/`set`/`has`/`delete`, with `set` of an
  existing key updating the value in place, keeping its position).
* `Array.prototype.sort` is stable (ES2019); it is modelled by the stable
  insertion sort `sSort` (a stable sort is uniquely determined by its
  comparator, so the choice of stable algorithm is immaterial).
* Timestamps (`Date.now()`, `performance.now()`) are `Nat` milliseconds passed
  explicitly as `now` parameters; calls that the source makes within one
  synchronous section share one clock value.
* Asynchronous remote calls are modelled by explicit start and resolve
  transition functions on a state record, with the outcome of the remote
  collaborator passed as an `Except`/`Option` parameter, and network activity
  recorded as an explicit effect list.
-/

namespace VoiceAutocomplete

/-- JS strings as lists of Unicode code points. -/
abbrev Str := List Nat

/-- Embed a Lean string literal as a list of code points. -/
def strLit (s : String) : Str := s.data.map Char.toNat

/-- The ASCII members of the JS whitespace class used by `trim`:
space, tab, line feed, carriage return, vertical tab, form feed. -/
def isWs (c : Nat) : Bool := c == 32 || c == 9 || c == 10 || c == 13 || c == 11 || c == 12

/-- ASCII fragment of `String.prototype.toLowerCase`. -/
def jsToLower (c : Nat) : Nat := if 65 ≤ c ∧ c ≤ 90 then c + 32 else c

/-- Left part of `String.prototype.trim`. -/
def trimLeft (s : Str) : Str := s.dropWhile isWs

/-- Right part of `String.prototype.trim`. -/
def trimRight (s : Str) : Str := (s.reverse.dropWhile isWs).reverse

/-- `String.prototype.trim`. -/
def trimStr (s : Str) : Str := trimRight (trimLeft s)

/-- `String.prototype.toLowerCase`. -/
def toLowerStr (s : Str) : Str := s.map jsToLower

/-- The key derivation `text.trim().toLowerCase()` used by the desktop
transcriber on the prefetch path (`prefetchSuggestions`), the pause path
(`showCachedSuggestions`) and the stale-completion check
(`maybeUpdateDisplayedSuggestions`). -/
def desktopKey (text : Str) : Str := toLowerStr (trimStr text)

/-- The key derivation used by the mobile transcriber on its trigger path
(`triggerLLMSuggestions`: `suggestionCache.has(text)`): the raw text. -/
def mobileTriggerKey (text : Str) : Str := text

/-- The key derivation used by the mobile transcriber on its prefetch path
(`prefetchSuggestions`: `activePrefetchCalls.has(text)`,
`suggestionCache.has(text)`): the raw text. -/
def mobilePrefetchCallKey (text : Str) : Str := text

/-- Auxiliary run counter: counts maximal runs of non-whitespace characters,
`inWord` recording whether the previous character was part of a word. -/
def countRunsAux : Bool → Str → Nat
  | _, [] => 0
  | inWord, c :: rest =>
      if isWs c then countRunsAux false rest
      else (if inWord then 0 else 1) + countRunsAux true rest

/-- Number of maximal non-whitespace runs of a string. -/
def countRuns (s : Str) : Nat := countRunsAux false s

/-- Desktop word count `text.trim().split(/\s+/).length`
(`prefetchSuggestions` line 859, `triggerLLMSuggestions` line 606,
`showCachedSuggestions` line 930).  In JS, splitting the empty string yields
`[""]` of length 1, hence the empty case. -/
def desktopWordCount (text : Str) : Nat :=
  if trimStr text = [] then 1 else countRuns (trimStr text)

/-- Mobile word count
`text.trim().split(/\s+/).filter(word => word.length > 0).length`
(`MobileSpeechTranscriber.wordCount`). Filtering empty words makes the empty
string count 0. -/
def mobileWordCount (text : Str) : Nat := countRuns (trimStr text)

/-! JS `Map` as an association list in insertion order. -/

/-- JS `Map.prototype.get`. -/
def mapGet {V : Type} (m : List (Str × V)) (k : Str) : Option V :=
  (m.find? (fun p => decide (p.1 = k))).map (fun p => p.2)

/-- JS `Map.prototype.has`. -/
def mapHas {V : Type} (m : List (Str × V)) (k : Str) : Bool :=
  m.any (fun p => decide (p.1 = k))

/-- JS `Map.prototype.set`: an existing key is updated in place (keeping its
insertion position); a new key is appended at the end. -/
def mapSet {V : Type} (m : List (Str × V)) (k : Str) (v : V) : List (Str × V) :=
  if mapHas m k then m.map (fun p => if p.1 = k then (k, v) else p)
  else m ++ [(k, v)]

/-- JS `Map.prototype.delete`. -/
def mapDelete {V : Type} (m : List (Str × V)) (k : Str) : List (Str × V) :=
  m.filter (fun p => decide (p.1 ≠ k))

/-- The keys of a map, in insertion order. -/
def mapKeys {V : Type} (m : List (Str × V)) : List Str := m.map (fun p => p.1)

/-- Well-formedness of the association-list model of a JS `Map`:
keys are pairwise distinct (guaranteed by `Map` semantics). -/
def NoDupKeys {V : Type} (m : List (Str × V)) : Prop := (mapKeys m).Nodup

/-! Stable sort, modelling `Array.prototype.sort` (stable per ES2019). -/

/-- Stable insertion of `x` after all already-placed elements `y` with
`le y x` (so elements comparing equal keep their original order). -/
def sInsert {α : Type} (le : α → α → Bool) (x : α) : List α → List α
  | [] => [x]
  | y :: ys => if le y x then y :: sInsert le x ys else x :: y :: ys

/-- Stable insertion sort: elements are inserted left to right, so elements
comparing equal keep their original relative order. -/
def sSort {α : Type} (le : α → α → Bool) (l : List α) : List α :=
  l.foldl (fun acc x => sInsert le x acc) []

/-! The desktop suggestion cache (`SpeechTranscriber`, `script.js`). -/

/-- The `source` field of a desktop cache entry: `'llm'` for a successful
remote call, `'fallback'` for a locally recovered failure. -/
inductive Source : Type
  | llm : Source
  | fallback : Source
deriving DecidableEq

/-- A desktop cache entry
`{suggestions, source, timestamp, latency}` (constructor comment line 155). -/
structure Entry : Type where
  suggestions : List Str
  source : Source
  timestamp : Nat
  latency : Nat
deriving DecidableEq

/-- `this.cacheMaxAge = 10000` (both transcribers). -/
def cacheMaxAge : Nat := 10000

/-- `this.maxCacheSize = 20` (both transcribers). -/
def maxCacheSize : Nat := 20

/-- `SpeechTranscriber.isCacheValid` (lines 960-966): present and
`Date.now() - cached.timestamp < this.cacheMaxAge`. -/
def isCacheValid (cache : List (Str × Entry)) (now : Nat) (cacheKey : Str) : Bool :=
  match mapGet cache cacheKey with
  | none => false
  | some cached => decide (now - cached.timestamp < cacheMaxAge)

/-- Comparator `(a, b) => b[1].timestamp - a[1].timestamp` of
`cleanupCache` (line 980), as the stable-sort order "may come before":
`a` may come before `b` iff `b`'s timestamp is not larger. -/
def newerFirst (a b : Str × Entry) : Bool := decide (b.2.timestamp ≤ a.2.timestamp)

/-- `SpeechTranscriber.cleanupCache` (lines 968-988): delete every entry whose
age strictly exceeds the TTL, then if the cache still exceeds `maxCacheSize`,
rebuild it from the `maxCacheSize` newest entries (stable sort by descending
timestamp, keep the first `maxCacheSize`). -/
def cleanupCache (now : Nat) (cache : List (Str × Entry)) : List (Str × Entry) :=
  let purged := cache.filter (fun p => decide (¬ cacheMaxAge < now - p.2.timestamp))
  if maxCacheSize < purged.length then (sSort newerFirst purged).take maxCacheSize
  else purged

/-- `SpeechTranscriber.cacheResult` (lines 955-958): `set` then `cleanupCache`. -/
def cacheResult (now : Nat) (cache : List (Str × Entry)) (cacheKey : Str) (result : Entry) :
    List (Str × Entry) :=
  cleanupCache now (mapSet cache cacheKey result)

/-- The lookup performed by `SpeechTranscriber.showCachedSuggestions`
(lines 922-925): `suggestionCache.get(cacheKey)` guarded by
`cached && this.isCacheValid(cacheKey)`. -/
def desktopCacheLookup (cache : List (Str × Entry)) (now : Nat) (cacheKey : Str) :
    Option Entry :=
  match mapGet cache cacheKey with
  | some cached => if isCacheValid cache now cacheKey then some cached else none
  | none => none

/-! The mobile suggestion cache (`MobileSpeechTranscriber`). -/

/-- A mobile cache entry `{suggestions, timestamp, latency}`
(`cacheSuggestions` lines 471-475); the mobile cache stores no source tag. -/
structure MEntry : Type where
  suggestions : List Str
  timestamp : Nat
  latency : Nat
deriving DecidableEq

/-- Core cache mutation of `MobileSpeechTranscriber.cacheSuggestions`
(lines 471-493): `set`, then if the size exceeds `maxCacheSize`, delete the
first key in insertion order (`suggestionCache.keys().next().value`). -/
def mobileCachePut (now : Nat) (latency : Nat) (cache : List (Str × MEntry))
    (text : Str) (suggestions : List Str) : List (Str × MEntry) :=
  let c1 := mapSet cache text ⟨suggestions, now, latency⟩
  if maxCacheSize < c1.length then
    match c1.head? with
    | some p => mapDelete c1 p.1
    | none => c1
  else c1

/-! The local fallback-suggestion generator. -/

/-- The five static fallback suggestion sets of
`SpeechTranscriber.getFallbackSuggestions` (lines 691-703). -/
def fallbackSets : List (List Str) :=
  [[strLit "and then", strLit "because", strLit "however"],
   [strLit "specifically", strLit "for example", strLit "in particular"],
   [strLit "therefore", strLit "meanwhile", strLit "additionally"],
   [strLit "such as", strLit "including", strLit "like"],
   [strLit "in order to", strLit "so that", strLit "which means"]]

/-- `SpeechTranscriber.getFallbackSuggestions` (lines 691-703): returns
`fallbacks[Math.floor(Math.random() * fallbacks.length)]`; the random draw is
made explicit as the index `r : Fin 5`.  The input text is ignored by the
source, as its unused parameter records. -/
def getFallbackSuggestions (text : Str) (r : Fin 5) : List Str :=
  fallbackSets.getD r.val []

/-! Desktop transcriber event model.

`SpeechTranscriber`'s suggestion engine is single-threaded and event-driven:
between two awaits everything runs synchronously.  Each synchronous section of
the source is one transition function on `DState`; the scheduler (event loop)
is the choice of which transition fires next.  `inFlight` holds the
outstanding `callLLMAPI` invocations, i.e. the outstanding remote suggestion
calls; the model assumes `llmConfig.isConfigured` (only then does `callLLMAPI`
reach the network; the unconfigured path is modelled separately below). -/

/-- Origin of an outstanding `callLLMAPI` invocation: the prefetch path
(`performPrefetch`) or the pause path (`triggerLLMSuggestions`). -/
inductive CallKind : Type
  | prefetch : CallKind
  | pause : CallKind
deriving DecidableEq

/-- An outstanding remote suggestion call: its id, origin, and the raw text
captured by the closure that started it. -/
structure Call : Type where
  id : Nat
  kind : CallKind
  text : Str
deriving DecidableEq

/-- The suggestion-relevant mutable state of a `SpeechTranscriber` instance. -/
structure DState : Type where
  /-- `this.suggestionCache` -/
  cache : List (Str × Entry)
  /-- keys of `this.activePrefetchCalls` -/
  activePrefetchCalls : List Str
  /-- outstanding `callLLMAPI` invocations -/
  inFlight : List Call
  /-- fresh id source for modelled calls -/
  nextCallId : Nat
  /-- `this.isProcessingLLM` -/
  isProcessingLLM : Bool
  /-- `this.lastValidSuggestions` (its `suggestions` array) -/
  lastValid : Option (List Str)
  /-- `this.lastInterimText` -/
  lastInterimText : Str
  /-- whether `suggestionsContainer.style.display === 'block'` -/
  displayShown : Bool
  /-- the suggestion chips currently rendered (`none` while loading) -/
  displayed : Option (List Str)
  /-- messages surfaced to the user through `showError` -/
  errors : List Str
deriving DecidableEq

/-- `SpeechTranscriber.showError` (lines 532-543): the only way an error is
surfaced to the user on the status line. -/
def showError (message : Str) (s : DState) : DState :=
  { s with errors := s.errors ++ [message] }

/-- `SpeechTranscriber.showLastValidSuggestions` (lines 789-820): if a last
valid suggestion list exists and is nonempty, render it (marked persistent)
and show the container; `lastValidSuggestions` itself is not modified. -/
def showLastValid (s : DState) : DState :=
  match s.lastValid with
  | some l => if 0 < l.length then { s with displayed := some l, displayShown := true } else s
  | none => s

/-- `SpeechTranscriber.displaySuggestions` (lines 717-787): empty input falls
back to `showLastValidSuggestions`; otherwise the suggestions are rendered,
stored as `lastValidSuggestions`, and the container is shown. -/
def displaySuggestions (suggs : List Str) (s : DState) : DState :=
  if suggs = [] then showLastValid s
  else { s with lastValid := some suggs, displayed := some suggs, displayShown := true }

/-- `SpeechTranscriber.maybeUpdateDisplayedSuggestions` (lines 944-953):
silently refresh the displayed chips only when the container is visible and
the resolved text still matches `lastInterimText` up to trim and case. -/
def maybeUpdateDisplayed (text : Str) (suggs : List Str) (s : DState) : DState :=
  if s.displayShown ∧ desktopKey text = desktopKey s.lastInterimText
  then displaySuggestions suggs s
  else s

/-- Synchronous head of `SpeechTranscriber.triggerLLMSuggestions`
(lines 600-614): guard on `isProcessingLLM` and blank text, then the 3-word
gate, then set `isProcessingLLM`, show the loading chip
(`showLoadingSuggestions` clears the rendered chips and shows the container)
and start `callLLMAPI(incompleteText)` — without consulting
`activePrefetchCalls`. -/
def triggerLLMStart (text : Str) (s : DState) : DState :=
  if s.isProcessingLLM ∨ trimStr text = [] then s
  else if desktopWordCount text < 3 then s
  else { s with isProcessingLLM := true,
                displayShown := true,
                displayed := none,
                inFlight := s.inFlight ++ [⟨s.nextCallId, CallKind.pause, text⟩],
                nextCallId := s.nextCallId + 1 }

/-- `SpeechTranscriber.showCachedSuggestions` (lines 921-942), the pause-timer
callback: on a valid cache hit display it; otherwise, with at least 3 words,
show the last valid suggestions if any exist, else start a fresh pause call;
with fewer than 3 words do nothing. -/
def pauseFire (now : Nat) (text : Str) (s : DState) : DState :=
  match mapGet s.cache (desktopKey text) with
  | some cached =>
      if isCacheValid s.cache now (desktopKey text) then displaySuggestions cached.suggestions s
      else if 3 ≤ desktopWordCount text then
        match s.lastValid with
        | some l => if 0 < l.length then showLastValid s else triggerLLMStart text s
        | none => triggerLLMStart text s
      else s
  | none =>
      if 3 ≤ desktopWordCount text then
        match s.lastValid with
        | some l => if 0 < l.length then showLastValid s else triggerLLMStart text s
        | none => triggerLLMStart text s
      else s

/-- Synchronous head of `SpeechTranscriber.prefetchSuggestions`
(lines 855-876): the 3-word gate, the `isCacheValid` redundancy check, the
`activePrefetchCalls` registry check; then register the key and start
`performPrefetch(text, cacheKey)`. -/
def prefetchStart (now : Nat) (text : Str) (s : DState) : DState :=
  if desktopWordCount text < 3 then s
  else if isCacheValid s.cache now (desktopKey text) then s
  else if s.activePrefetchCalls.contains (desktopKey text) then s
  else { s with activePrefetchCalls := s.activePrefetchCalls ++ [desktopKey text],
                inFlight := s.inFlight ++ [⟨s.nextCallId, CallKind.prefetch, text⟩],
                nextCallId := s.nextCallId + 1 }

/-- Resolution of a prefetch call: the continuation of
`SpeechTranscriber.performPrefetch` (lines 887-919) followed by the `finally`
of `prefetchSuggestions` (line 883).  On success the result is cached
(`source: 'llm'`) and conditionally displayed; on failure fallback suggestions
(random draw `r`) are cached (`source: 'fallback'`) and conditionally
displayed; either way the key leaves `activePrefetchCalls`.  `lat` is the
measured `performance.now()` difference. -/
def dropActiveKey (k : Str) (t : DState) : DState :=
  { t with activePrefetchCalls := t.activePrefetchCalls.filter (fun k2 => decide (k2 ≠ k)) }

def prefetchResolve (now : Nat) (cid : Nat) (outcome : Except Unit (List Str))
    (r : Fin 5) (lat : Nat) (s : DState) : DState :=
  match s.inFlight.find? (fun c => decide (c.id = cid)) with
  | none => s
  | some c =>
    if c.kind ≠ CallKind.prefetch then s else
    match outcome with
    | Except.ok suggs =>
        dropActiveKey (desktopKey c.text)
          (maybeUpdateDisplayed c.text suggs
            { s with inFlight := s.inFlight.filter (fun c2 => decide (c2.id ≠ cid)),
                     cache := cacheResult now s.cache (desktopKey c.text)
                       ⟨suggs, Source.llm, now, lat⟩ })
    | Except.error _ =>
        dropActiveKey (desktopKey c.text)
          (maybeUpdateDisplayed c.text (getFallbackSuggestions c.text r)
            { s with inFlight := s.inFlight.filter (fun c2 => decide (c2.id ≠ cid)),
                     cache := cacheResult now s.cache (desktopKey c.text)
                       ⟨getFallbackSuggestions c.text r, Source.fallback, now, lat⟩ })

/-- Resolution of a pause call: the continuation of
`SpeechTranscriber.triggerLLMSuggestions` (lines 616-629).  On success the
result is displayed unconditionally; on failure fallback suggestions are
displayed; nothing is written to the cache; `isProcessingLLM` is reset. -/
def pauseResolve (cid : Nat) (outcome : Except Unit (List Str))
    (r : Fin 5) (s : DState) : DState :=
  match s.inFlight.find? (fun c => decide (c.id = cid)) with
  | none => s
  | some c =>
    if c.kind ≠ CallKind.pause then s else
    match outcome with
    | Except.ok suggs =>
        { displaySuggestions suggs
            { s with inFlight := s.inFlight.filter (fun c2 => decide (c2.id ≠ cid)) }
          with isProcessingLLM := false }
    | Except.error _ =>
        { displaySuggestions (getFallbackSuggestions c.text r)
            { s with inFlight := s.inFlight.filter (fun c2 => decide (c2.id ≠ cid)) }
          with isProcessingLLM := false }

/-- Effect of a transcript update on `lastInterimText`
(`handlePauseDetection`, lines 567-582): recorded when the text is nonempty
and differs from the previous one.  Timer rearming is represented by the
scheduler's freedom to fire `pauseFire` later. -/
def transcriptUpdate (text : Str) (s : DState) : DState :=
  if trimStr text ≠ [] ∧ text ≠ s.lastInterimText then { s with lastInterimText := text }
  else s

/-- The number of outstanding remote suggestion calls whose text normalizes
to the given key. -/
def inFlightForKey (s : DState) (k : Str) : Nat :=
  (s.inFlight.filter (fun c => decide (desktopKey c.text = k))).length

/-- The initial suggestion-engine state of a freshly constructed
`SpeechTranscriber`. -/
def initDState : DState :=
  { cache := [], activePrefetchCalls := [], inFlight := [], nextCallId := 0,
    isProcessingLLM := false, lastValid := none, lastInterimText := [],
    displayShown := false, displayed := none, errors := [] }

/-! Remote call boundary and the mobile transcriber. -/

/-- The configuration fragment that gates network access
(`this.llmConfig.isConfigured`). -/
structure LLMConfig : Type where
  isConfigured : Bool
deriving DecidableEq

/-- Observable network activity: one `fetch` of the chat-completions endpoint
for the given text. -/
inductive CallEffect : Type
  | fetch : Str → CallEffect
deriving DecidableEq

/-- `SpeechTranscriber.callLLMAPI` (lines 635-689): when the configuration is
absent it throws (`Except.error`) before building the request, so no fetch
effect is emitted; otherwise the request is sent and the outcome is the remote
collaborator's (`remote`: parsed suggestions on HTTP success, error on
failure), per the interface contract of the suggestion-generation service. -/
def desktopCallLLMAPI (cfg : LLMConfig) (text : Str)
    (remote : Except Unit (List Str)) : Except Unit (List Str) × List CallEffect :=
  if ¬ cfg.isConfigured then (Except.error (), [])
  else (remote, [CallEffect.fetch text])

/-- The suggestion-relevant mutable state of a `MobileSpeechTranscriber`. -/
structure MState : Type where
  /-- `this.suggestionCache` -/
  cache : List (Str × MEntry)
  /-- keys of `this.activePrefetchCalls` -/
  activePrefetchCalls : List Str
  /-- `this.lastValidSuggestions` -/
  lastValid : Option (List Str)
  /-- `this.lastSuggestionContext` -/
  lastSuggestionContext : Str
  /-- `this.lastInterimText` -/
  lastInterimText : Str
  /-- `this.isProcessingLLM` -/
  isProcessingLLM : Bool
  /-- `this.apiCallStartTime` (`null` initially) -/
  apiCallStartTime : Option Nat
  /-- `this.latencyHistory` -/
  latencyHistory : List Nat
  /-- `this.lastApiLatency` -/
  lastApiLatency : Option Nat
  /-- the suggestion pills currently rendered -/
  displayed : Option (List Str)
deriving DecidableEq

/-- `MobileSpeechTranscriber.displaySuggestions` (lines 496-518): stores the
list as `lastValidSuggestions`, records the context, and renders the pills. -/
def mobileDisplay (suggs : List Str) (s : MState) : MState :=
  { s with lastValid := some suggs,
           lastSuggestionContext := s.lastInterimText,
           displayed := some suggs }

/-- `MobileSpeechTranscriber.getLLMSuggestions` (lines 520-575): returns
`null` before any fetch when not configured; otherwise fetches and yields the
remote outcome (`Except.error` for an HTTP failure, `Except.ok none` for an
empty body, `Except.ok (some suggestions)` for a parsed body). -/
def mobileGetLLMSuggestions (cfg : LLMConfig) (text : Str)
    (remote : Except Unit (Option (List Str))) :
    Except Unit (Option (List Str)) × List CallEffect :=
  if ¬ cfg.isConfigured then (Except.ok none, [])
  else (remote, [CallEffect.fetch text])

/-- `MobileSpeechTranscriber.cacheSuggestions` (lines 468-494): latency is
`apiCallStartTime ? Date.now() - apiCallStartTime : 0`; the entry is stored
through `mobileCachePut`; a positive latency is pushed to the bounded history. -/
def mobileCacheSuggestions (now : Nat) (text : Str) (suggs : List Str) (s : MState) : MState :=
  let latency := match s.apiCallStartTime with
    | some t0 => now - t0
    | none => 0
  let cache1 := mobileCachePut now latency s.cache text suggs
  if 0 < latency then
    let hist := s.latencyHistory ++ [latency]
    { s with cache := cache1,
             latencyHistory := if 10 < hist.length then hist.drop 1 else hist,
             lastApiLatency := some latency }
  else { s with cache := cache1 }

/-- The remote-call section of `MobileSpeechTranscriber.triggerLLMSuggestions`
(lines 424-443): set `isProcessingLLM` and `apiCallStartTime`, await
`getLLMSuggestions`, on a nonempty result display and cache it, on `null` do
nothing, on a thrown error re-display the last valid suggestions if any;
`finally`, reset `isProcessingLLM`. -/
def mobileTriggerCall (cfg : LLMConfig) (remote : Except Unit (Option (List Str)))
    (now now2 : Nat) (text : Str) (s : MState) : MState × List CallEffect :=
  match (mobileGetLLMSuggestions cfg text remote).1 with
  | Except.ok (some suggs) =>
      if 0 < suggs.length then
        ({ mobileCacheSuggestions now2 text suggs
             (mobileDisplay suggs { s with isProcessingLLM := true, apiCallStartTime := some now })
           with isProcessingLLM := false },
          (mobileGetLLMSuggestions cfg text remote).2)
      else ({ s with isProcessingLLM := false, apiCallStartTime := some now },
        (mobileGetLLMSuggestions cfg text remote).2)
  | Except.ok none =>
      ({ s with isProcessingLLM := false, apiCallStartTime := some now },
        (mobileGetLLMSuggestions cfg text remote).2)
  | Except.error _ =>
      match s.lastValid with
      | some l =>
          ({ mobileDisplay l { s with isProcessingLLM := true, apiCallStartTime := some now }
             with isProcessingLLM := false },
            (mobileGetLLMSuggestions cfg text remote).2)
      | none =>
          ({ s with isProcessingLLM := false, apiCallStartTime := some now },
            (mobileGetLLMSuggestions cfg text remote).2)

/-- `MobileSpeechTranscriber.triggerLLMSuggestions` (lines 401-444), run to
completion of its single await: word gate, `isProcessingLLM` guard, TTL-checked
cache display, then the remote call (`mobileTriggerCall`).  `now` is the clock
at call start, `now2` at resolution. -/
def mobileTriggerRun (cfg : LLMConfig) (remote : Except Unit (Option (List Str)))
    (now now2 : Nat) (text : Str) (s : MState) : MState × List CallEffect :=
  if trimStr text = [] ∨ mobileWordCount text < 3 then (s, [])
  else if s.isProcessingLLM then (s, [])
  else match mapGet s.cache (mobileTriggerKey text) with
    | some cached =>
        if now - cached.timestamp < cacheMaxAge then (mobileDisplay cached.suggestions s, [])
        else mobileTriggerCall cfg remote now now2 text s
    | none => mobileTriggerCall cfg remote now now2 text s

/-- `MobileSpeechTranscriber.prefetchSuggestions` (lines 446-466), run to
completion: word gate, pending-call check, then the redundancy check
`suggestionCache.has(text)` — presence alone, with no TTL test.  On a
successful nonempty result the suggestions are cached; the transient
`activePrefetchCalls` entry is added and removed within the run, leaving the
registry unchanged on exit. -/
def mobilePrefetchRun (cfg : LLMConfig) (remote : Except Unit (Option (List Str)))
    (now2 : Nat) (text : Str) (s : MState) : MState × List CallEffect :=
  if trimStr text = [] ∨ mobileWordCount text < 3 then (s, [])
  else if s.activePrefetchCalls.contains (mobilePrefetchCallKey text) then (s, [])
  else if mapHas s.cache (mobilePrefetchCallKey text) then (s, [])
  else match (mobileGetLLMSuggestions cfg text remote).1 with
    | Except.ok (some suggs) =>
        if 0 < suggs.length then
          (mobileCacheSuggestions now2 text suggs s, (mobileGetLLMSuggestions cfg text remote).2)
        else (s, (mobileGetLLMSuggestions cfg text remote).2)
    | _ => (s, (mobileGetLLMSuggestions cfg text remote).2)

/-- The skip condition of the mobile prefetch redundancy check taken in
isolation (`prefetchSuggestions` line 449): a prefetch for `text` is
suppressed by mere presence of a cache entry. -/
def mobilePrefetchSuppressedByCache (s : MState) (text : Str) : Bool :=
  mapHas s.cache (mobilePrefetchCallKey text)

/-- The initial suggestion-engine state of a freshly constructed
`MobileSpeechTranscriber`. -/
def initMState : MState :=
  { cache := [], activePrefetchCalls := [], lastValid := none,
    lastSuggestionContext := [], lastInterimText := [], isProcessingLLM := false,
    apiCallStartTime := none, latencyHistory := [], lastApiLatency := none,
    displayed := none }

/-! Debounce timers. -/

/-- A pending debounce timer: when it fires (at `deadline`) it will invoke the
prefetch with the captured `text`. -/
structure DebounceTimer : Type where
  deadline : Nat
  text : Str
deriving DecidableEq

/-- The gate of `SpeechTranscriber.triggerPrefetch` (line 585):
`!currentText.trim() || currentText.length < 3` returns early — before the
`clearTimeout`, so a failing update leaves any pending timer running. -/
def desktopPrefetchGate (text : Str) : Bool :=
  decide (trimStr text ≠ []) && decide (3 ≤ text.length)

/-- One `triggerPrefetch` invocation (lines 584-598) acting on the pending
timer at time `t`: a gated text replaces the timer with deadline
`t + delay`; a failing text leaves the timer untouched. -/
def triggerPrefetchStep (delay : Nat) (timer : Option DebounceTimer)
    (t : Nat) (text : Str) : Option DebounceTimer :=
  if desktopPrefetchGate text then some ⟨t + delay, text⟩ else timer

/-- Replay of the desktop debounce under a timestamped update trace: before
each update the pending timer fires if its deadline has passed, and after the
trace it fires if it is due by `tEnd`.  The result is the list of
`prefetchSuggestions` executions as (time, text) pairs. -/
def runPrefetchDebounce (delay : Nat) :
    Option DebounceTimer → List (Nat × Str) → Nat → List (Nat × Str)
  | timer, [], tEnd =>
      match timer with
      | some tm => if tm.deadline ≤ tEnd then [(tm.deadline, tm.text)] else []
      | none => []
  | some tm, (t, x) :: rest, tEnd =>
      if tm.deadline ≤ t then
        (tm.deadline, tm.text) :: runPrefetchDebounce delay (triggerPrefetchStep delay none t x) rest tEnd
      else runPrefetchDebounce delay (triggerPrefetchStep delay (some tm) t x) rest tEnd
  | none, (t, x) :: rest, tEnd =>
      runPrefetchDebounce delay (triggerPrefetchStep delay none t x) rest tEnd

/-- One `MobileSpeechTranscriber.debouncedPrefetch` invocation (lines
389-399): the pending timer is cleared and rearmed unconditionally. -/
def mobileDebounceStep (delay : Nat) (timer : Option DebounceTimer)
    (t : Nat) (text : Str) : Option DebounceTimer :=
  some ⟨t + delay, text⟩

/-- Firing of the mobile debounce timer: the callback checks
`wordCount(text) >= 3` before invoking the prefetch. -/
def mobileFireEmits (tm : DebounceTimer) : List (Nat × Str) :=
  if 3 ≤ mobileWordCount tm.text then [(tm.deadline, tm.text)] else []

/-- Replay of the mobile debounce under a timestamped update trace, returning
the list of `prefetchSuggestions` executions. -/
def runMobileDebounce (delay : Nat) :
    Option DebounceTimer → List (Nat × Str) → Nat → List (Nat × Str)
  | timer, [], tEnd =>
      match timer with
      | some tm => if tm.deadline ≤ tEnd then mobileFireEmits tm else []
      | none => []
  | some tm, (t, x) :: rest, tEnd =>
      if tm.deadline ≤ t then
        mobileFireEmits tm ++ runMobileDebounce delay (mobileDebounceStep delay none t x) rest tEnd
      else runMobileDebounce delay (mobileDebounceStep delay (some tm) t x) rest tEnd
  | none, (t, x) :: rest, tEnd =>
      runMobileDebounce delay (mobileDebounceStep delay none t x) rest tEnd

/-- Gap condition of a burst: times strictly increase and consecutive updates
arrive less than `delay` apart. -/
def gapsOK (delay : Nat) : List (Nat × Str) → Bool
  | [] => true
  | [_] => true
  | a :: b :: rest =>
      decide (a.1 < b.1) && decide (b.1 - a.1 < delay) && gapsOK delay (b :: rest)

/-- A burst in the sense of the debounce-collapsing property: a nonempty
update trace with strictly increasing times and consecutive gaps strictly
below `delay`. -/
def IsBurst (delay : Nat) (updates : List (Nat × Str)) : Prop :=
  updates ≠ [] ∧ gapsOK delay updates = true

instance (delay : Nat) (updates : List (Nat × Str)) : Decidable (IsBurst delay updates) := by
  unfold IsBurst
  infer_instance

/-- `this.prefetchDebounceDelay = 200` (both transcribers). -/
def prefetchDebounceDelay : Nat := 200

/-! Lemmas about trimming and case folding. -/

/-- A string consisting only of whitespace. -/
def WsOnly (u : Str) : Prop := ∀ c ∈ u, isWs c = true

instance (u : Str) : Decidable (WsOnly u) := by
  unfold WsOnly
  infer_instance

theorem dropWhile_ws_append {u s : Str} (hu : WsOnly u) :
    List.dropWhile isWs (u ++ s) = List.dropWhile isWs s := by
  rw [List.dropWhile_append]
  have h : List.dropWhile isWs u = [] := List.dropWhile_eq_nil_iff.mpr hu
  simp [h]

theorem trimLeft_ws_append {u s : Str} (hu : WsOnly u) :
    trimLeft (u ++ s) = trimLeft s :=
  dropWhile_ws_append hu

theorem trimRight_append_ws {s v : Str} (hv : WsOnly v) :
    trimRight (s ++ v) = trimRight s := by
  unfold trimRight
  rw [List.reverse_append, dropWhile_ws_append]
  intro c hc
  exact hv c (List.mem_reverse.mp hc)

theorem trimLeft_eq_nil_iff {s : Str} : trimLeft s = [] ↔ WsOnly s :=
  List.dropWhile_eq_nil_iff

theorem trimStr_ws_wrap {u c v : Str} (hu : WsOnly u) (hv : WsOnly v) :
    trimStr (u ++ c ++ v) = trimStr c := by
  unfold trimStr
  rw [List.append_assoc, trimLeft_ws_append hu]
  by_cases hc : trimLeft c = []
  · have hcv : trimLeft (c ++ v) = [] := by
      rw [show trimLeft (c ++ v) = List.dropWhile isWs (c ++ v) from rfl,
        dropWhile_ws_append (trimLeft_eq_nil_iff.mp hc)]
      exact trimLeft_eq_nil_iff.mpr hv
    rw [hcv, hc]
  · have hcv : trimLeft (c ++ v) = trimLeft c ++ v := by
      show List.dropWhile isWs (c ++ v) = _
      rw [List.dropWhile_append]
      simp only [List.isEmpty_iff]
      rw [if_neg (show ¬ List.dropWhile isWs c = [] from hc)]
      rfl
    rw [hcv, trimRight_append_ws hv]

theorem isWs_jsToLower (c : Nat) : isWs (jsToLower c) = isWs c := by
  unfold jsToLower
  by_cases h : 65 ≤ c ∧ c ≤ 90
  · rw [if_pos h]
    have h1 : isWs (c + 32) = false := by
      simp only [isWs, Bool.or_eq_false_iff, beq_eq_false_iff_ne, ne_eq]
      omega
    have h2 : isWs c = false := by
      simp only [isWs, Bool.or_eq_false_iff, beq_eq_false_iff_ne, ne_eq]
      omega
    rw [h1, h2]
  · rw [if_neg h]

theorem trimLeft_toLowerStr (s : Str) :
    trimLeft (toLowerStr s) = toLowerStr (trimLeft s) := by
  show List.dropWhile isWs (s.map jsToLower) = (List.dropWhile isWs s).map jsToLower
  rw [List.dropWhile_map, show isWs ∘ jsToLower = isWs from funext isWs_jsToLower]

theorem trimRight_toLowerStr (s : Str) :
    trimRight (toLowerStr s) = toLowerStr (trimRight s) := by
  unfold trimRight toLowerStr
  rw [← List.map_reverse, List.dropWhile_map, List.map_reverse,
    show isWs ∘ jsToLower = isWs from funext isWs_jsToLower]

theorem trimStr_toLowerStr (s : Str) :
    trimStr (toLowerStr s) = toLowerStr (trimStr s) := by
  unfold trimStr
  rw [trimLeft_toLowerStr, trimRight_toLowerStr]

/-- Two raw texts that differ only by leading/trailing whitespace or by letter
case: both are a whitespace wrapping of core texts that agree up to case. -/
def SameModWsCase (t1 t2 : Str) : Prop :=
  ∃ u v u' v' c c' : Str, WsOnly u ∧ WsOnly v ∧ WsOnly u' ∧ WsOnly v' ∧
    toLowerStr c = toLowerStr c' ∧ t1 = u ++ c ++ v ∧ t2 = u' ++ c' ++ v'

/-- C4 (amended): in the desktop transcriber, every key-deriving path
(prefetch, pause lookup, stale-completion check) uses
`text.trim().toLowerCase()`, so two raw texts that differ only by
leading/trailing whitespace or letter case derive the same key.  The mobile
transcriber keys its cache and pending-call registry by the raw text, so there
the invariant fails (see the counterexample). -/
theorem c4_desktop_key_normalization (t1 t2 : Str) (h : SameModWsCase t1 t2) :
    desktopKey t1 = desktopKey t2 := by
  obtain ⟨u, v, u', v', c, c', hu, hv, hu', hv', hcc, h1, h2⟩ := h
  subst h1
  subst h2
  unfold desktopKey
  rw [trimStr_ws_wrap hu hv, trimStr_ws_wrap hu' hv', ← trimStr_toLowerStr, hcc,
    trimStr_toLowerStr]

/-- Witness for `c4_desktop_key_normalization` at the concrete pair
`" Hello World "` and `"hello world"`. -/
theorem c4_desktop_key_normalization_witness :
    desktopKey (strLit " Hello World ") = desktopKey (strLit "hello world") :=
  c4_desktop_key_normalization (strLit " Hello World ") (strLit "hello world")
    ⟨strLit " ", strLit " ", [], [], strLit "Hello World", strLit "hello world",
      by decide, by decide, by decide, by decide, by decide, by decide, by decide⟩

/-- C4 is false as stated: the mobile transcriber derives its cache key
(`triggerLLMSuggestions`) and its registry/cache key (`prefetchSuggestions`)
from the raw text with no case folding, so `"Hello world trip"` and
`"hello world trip"`, which differ only by letter case, map to different keys
on those paths. -/
theorem c4_mobile_key_counterexample :
    SameModWsCase (strLit "Hello world trip") (strLit "hello world trip") ∧
    mobileTriggerKey (strLit "Hello world trip") ≠ mobileTriggerKey (strLit "hello world trip") ∧
    mobilePrefetchCallKey (strLit "Hello world trip") ≠ mobilePrefetchCallKey (strLit "hello world trip") :=
  ⟨⟨[], [], [], [], strLit "Hello world trip", strLit "hello world trip",
      by decide, by decide, by decide, by decide, by decide, by decide, by decide⟩,
    by decide, by decide⟩

/-- C2 (amended): on the desktop transcriber a cache lookup returns an entry
iff it is present and its age is strictly below the TTL (so an entry whose age
has reached the TTL is absent), and the desktop prefetch redundancy check
treats an expired entry as absent: with the word gate passed and no pending
call, an expired entry does not suppress the new remote call.  (The mobile
prefetch redundancy check tests presence only; see the counterexample.) -/
theorem c2_desktop_ttl_lookup :
    (∀ (cache : List (Str × Entry)) (now : Nat) (k : Str) (e : Entry),
      desktopCacheLookup cache now k = some e ↔
        mapGet cache k = some e ∧ now - e.timestamp < cacheMaxAge) ∧
    (∀ (s : DState) (now : Nat) (text : Str) (e : Entry),
      mapGet s.cache (desktopKey text) = some e →
      cacheMaxAge ≤ now - e.timestamp →
      3 ≤ desktopWordCount text →
      s.activePrefetchCalls.contains (desktopKey text) = false →
      (prefetchStart now text s).inFlight =
        s.inFlight ++ [⟨s.nextCallId, CallKind.prefetch, text⟩]) := by
  constructor
  · intro cache now k e
    cases h : mapGet cache k with
    | none =>
      unfold desktopCacheLookup
      rw [h]
      simp
    | some cached =>
      have hv : isCacheValid cache now k = decide (now - cached.timestamp < cacheMaxAge) := by
        unfold isCacheValid
        rw [h]
      unfold desktopCacheLookup
      rw [h, hv]
      show (if decide (now - cached.timestamp < cacheMaxAge) = true then some cached else none)
          = some e ↔ _
      by_cases hts : now - cached.timestamp < cacheMaxAge
      · rw [if_pos (by simpa using hts)]
        constructor
        · intro he
          cases he
          exact ⟨rfl, hts⟩
        · intro he
          cases he.1
          rfl
      · rw [if_neg (by simpa using hts)]
        constructor
        · intro he
          cases he
        · intro he
          cases he.1
          exact absurd he.2 hts
  · intro s now text e hget hexp hwc hact
    have hval : isCacheValid s.cache now (desktopKey text) = false := by
      unfold isCacheValid
      rw [hget]
      simp only [decide_eq_false_iff_not, not_lt]
      exact hexp
    have hmem : desktopKey text ∉ s.activePrefetchCalls := by
      simpa using hact
    unfold prefetchStart
    rw [if_neg (show ¬ desktopWordCount text < 3 by omega), hval]
    simp [hmem]

/-- Witness for `c2_desktop_ttl_lookup`: a fresh entry is returned at age
9999 ms, and at age exactly 10000 ms the same entry is treated as absent and
a prefetch for its key starts a new call. -/
theorem c2_desktop_ttl_lookup_witness :
    desktopCacheLookup [(strLit "plan a trip", ⟨[strLit "and then"], Source.llm, 0, 5⟩)] 9999
        (strLit "plan a trip") = some ⟨[strLit "and then"], Source.llm, 0, 5⟩ ∧
    (prefetchStart 10000 (strLit "plan a trip")
        { initDState with cache := [(strLit "plan a trip", ⟨[strLit "and then"], Source.llm, 0, 5⟩)] }).inFlight =
      [⟨0, CallKind.prefetch, strLit "plan a trip"⟩] := by
  constructor
  · exact (c2_desktop_ttl_lookup.1 _ 9999 _ _).mpr (by decide)
  · exact c2_desktop_ttl_lookup.2
      { initDState with cache := [(strLit "plan a trip", ⟨[strLit "and then"], Source.llm, 0, 5⟩)] }
      10000 (strLit "plan a trip") ⟨[strLit "and then"], Source.llm, 0, 5⟩
      (by decide) (by decide) (by decide) (by decide)

/-- Concrete mobile state for the C2 counterexample: one cache entry for
"plan a trip", created at time 0. -/
def c2MEntry : MEntry := ⟨[strLit "and then"], 0, 0⟩

/-- Mobile state holding only `c2MEntry`. -/
def c2MState : MState := { initMState with cache := [(strLit "plan a trip", c2MEntry)] }

/-- C2 is false as stated: at time 10000 the mobile entry for "plan a trip"
has age exactly the TTL, yet `MobileSpeechTranscriber.prefetchSuggestions`
checks presence only (`suggestionCache.has(text)`), so the expired entry
suppresses the new remote call: the run issues no fetch and changes nothing,
although the word gate passes, no call is pending, the configuration is set
and the remote service would answer. -/
theorem c2_mobile_expired_suppresses_counterexample :
    mapGet c2MState.cache (mobilePrefetchCallKey (strLit "plan a trip")) = some c2MEntry ∧
    cacheMaxAge ≤ 10000 - c2MEntry.timestamp ∧
    3 ≤ mobileWordCount (strLit "plan a trip") ∧
    c2MState.activePrefetchCalls = [] ∧
    mobilePrefetchRun ⟨true⟩ (Except.ok (some [strLit "which city?"])) 10000
        (strLit "plan a trip") c2MState = (c2MState, []) := by
  refine ⟨by decide, by decide, by decide, by decide, ?_⟩
  decide

/-! Lemmas about the stable sort and the Map model. -/

theorem sInsert_perm {α : Type} (le : α → α → Bool) (x : α) (l : List α) :
    (sInsert le x l).Perm (x :: l) := by
  induction l with
  | nil => exact List.Perm.refl _
  | cons y ys ih =>
    unfold sInsert
    by_cases h : le y x = true
    · rw [if_pos h]
      exact ((ih.cons y).trans (List.Perm.swap x y ys)).symm.symm
    · rw [if_neg h]

theorem sFold_perm {α : Type} (le : α → α → Bool) :
    ∀ (l acc : List α), (l.foldl (fun a x => sInsert le x a) acc).Perm (l ++ acc) := by
  intro l
  induction l with
  | nil => intro acc; simp
  | cons x xs ih =>
    intro acc
    have h1 := ih (sInsert le x acc)
    have h2 : (xs ++ sInsert le x acc).Perm (xs ++ x :: acc) :=
      List.Perm.append_left xs (sInsert_perm le x acc)
    have h3 : (xs ++ x :: acc).Perm (x :: (xs ++ acc)) := List.perm_middle
    simpa using (h1.trans h2).trans h3

theorem sSort_perm {α : Type} (le : α → α → Bool) (l : List α) :
    (sSort le l).Perm l := by
  simpa using sFold_perm le l []

theorem sInsert_pairwise {α : Type} {le : α → α → Bool}
    (htot : ∀ a b, le a b = true ∨ le b a = true)
    (htrans : ∀ a b c, le a b = true → le b c = true → le a c = true)
    (x : α) (l : List α) (hl : l.Pairwise (fun a b => le a b = true)) :
    (sInsert le x l).Pairwise (fun a b => le a b = true) := by
  induction l with
  | nil => simp [sInsert]
  | cons y ys ih =>
    rcases List.pairwise_cons.mp hl with ⟨hy, hys⟩
    unfold sInsert
    by_cases h : le y x = true
    · rw [if_pos h]
      refine List.pairwise_cons.mpr ⟨?_, ih hys⟩
      intro z hz
      rcases List.mem_cons.mp ((sInsert_perm le x ys).mem_iff.mp hz) with hzx | hzys
      · rw [hzx]; exact h
      · exact hy z hzys
    · rw [if_neg h]
      have hxy : le x y = true := by
        rcases htot x y with h1 | h1
        · exact h1
        · exact absurd h1 h
      refine List.pairwise_cons.mpr ⟨?_, hl⟩
      intro z hz
      rcases List.mem_cons.mp hz with hzy | hzys
      · rw [hzy]; exact hxy
      · exact htrans x y z hxy (hy z hzys)

theorem sSort_pairwise {α : Type} {le : α → α → Bool}
    (htot : ∀ a b, le a b = true ∨ le b a = true)
    (htrans : ∀ a b c, le a b = true → le b c = true → le a c = true)
    (l : List α) : (sSort le l).Pairwise (fun a b => le a b = true) := by
  have haux : ∀ (m acc : List α), acc.Pairwise (fun a b => le a b = true) →
      (m.foldl (fun a x => sInsert le x a) acc).Pairwise (fun a b => le a b = true) := by
    intro m
    induction m with
    | nil => intro acc h; exact h
    | cons x xs ih =>
      intro acc h
      exact ih (sInsert le x acc) (sInsert_pairwise htot htrans x acc h)
  exact haux l [] List.Pairwise.nil

theorem mapHas_eq_false_iff {V : Type} (m : List (Str × V)) (k : Str) :
    mapHas m k = false ↔ ∀ p ∈ m, p.1 ≠ k := by
  unfold mapHas
  simp

theorem mapHas_eq_true_of_mem {V : Type} {m : List (Str × V)} {p : Str × V}
    (hp : p ∈ m) : mapHas m p.1 = true := by
  unfold mapHas
  rw [List.any_eq_true]
  exact ⟨p, hp, by simp⟩

theorem mem_mapSet {V : Type} {m : List (Str × V)} {k : Str} {v : V} {p : Str × V}
    (hp : p ∈ mapSet m k v) : p = (k, v) ∨ p ∈ m := by
  unfold mapSet at hp
  by_cases h : mapHas m k = true
  · rw [if_pos h] at hp
    rcases List.mem_map.mp hp with ⟨q, hq, hqp⟩
    by_cases hqk : q.1 = k
    · rw [if_pos hqk] at hqp
      exact Or.inl hqp.symm
    · rw [if_neg hqk] at hqp
      exact Or.inr (hqp ▸ hq)
  · rw [if_neg h] at hp
    rcases List.mem_append.mp hp with h1 | h1
    · exact Or.inr h1
    · exact Or.inl (List.mem_singleton.mp h1)

theorem mapSet_length_of_not_has {V : Type} {m : List (Str × V)} {k : Str} (v : V)
    (h : mapHas m k = false) : (mapSet m k v).length = m.length + 1 := by
  unfold mapSet
  rw [h]
  simp

theorem mapSet_length_of_has {V : Type} {m : List (Str × V)} {k : Str} (v : V)
    (h : mapHas m k = true) : (mapSet m k v).length = m.length := by
  unfold mapSet
  rw [h]
  simp

theorem mapKeys_mapSet_of_not_has {V : Type} {m : List (Str × V)} {k : Str} (v : V)
    (h : mapHas m k = false) : mapKeys (mapSet m k v) = mapKeys m ++ [k] := by
  unfold mapSet mapKeys
  rw [h]
  simp

theorem mapDelete_length_of_mem {V : Type} :
    ∀ (m : List (Str × V)) (k : Str), NoDupKeys m → mapHas m k = true →
      (mapDelete m k).length + 1 = m.length := by
  intro m
  induction m with
  | nil => intro k _ h; cases h
  | cons p rest ih =>
    intro k hnd hhas
    have hnd' : NoDupKeys rest := (List.nodup_cons.mp hnd).2
    have hpk : p.1 ∉ mapKeys rest := by
      have := (List.nodup_cons.mp hnd).1
      simpa [mapKeys] using this
    by_cases h : p.1 = k
    · have hrest : mapDelete rest k = rest := by
        unfold mapDelete
        apply List.filter_eq_self.mpr
        intro q hq
        have : q.1 ≠ k := by
          intro hqk
          exact hpk (by
            rw [h, ← hqk]
            exact List.mem_map.mpr ⟨q, hq, rfl⟩)
        simpa using this
      unfold mapDelete
      rw [List.filter_cons, if_neg (by simp [h])]
      show (mapDelete rest k).length + 1 = rest.length + 1
      rw [hrest]
    · have hhas' : mapHas rest k = true := by
        unfold mapHas at hhas ⊢
        rcases List.any_eq_true.mp hhas with ⟨q, hq, hqk⟩
        rcases List.mem_cons.mp hq with rfl | hq1
        · exact absurd (by simpa using hqk) h
        · exact List.any_eq_true.mpr ⟨q, hq1, hqk⟩
      unfold mapDelete
      rw [List.filter_cons, if_pos (by simp [h])]
      show ((mapDelete rest k).length + 1) + 1 = rest.length + 1
      rw [ih k hnd' hhas']

theorem newerFirst_total (a b : Str × Entry) :
    newerFirst a b = true ∨ newerFirst b a = true := by
  unfold newerFirst
  rcases Nat.le_total a.2.timestamp b.2.timestamp with h | h
  · right; simpa using h
  · left; simpa using h

theorem newerFirst_trans (a b c : Str × Entry)
    (h1 : newerFirst a b = true) (h2 : newerFirst b c = true) : newerFirst a c = true := by
  unfold newerFirst at h1 h2 ⊢
  simp only [decide_eq_true_eq] at h1 h2 ⊢
  omega

/-- The entries kept by the purge phase of `cleanupCache`. -/
def purgeSurvivors (now : Nat) (cache : List (Str × Entry)) : List (Str × Entry) :=
  cache.filter (fun p => decide (¬ cacheMaxAge < now - p.2.timestamp))

theorem cleanupCache_eq (now : Nat) (cache : List (Str × Entry)) :
    cleanupCache now cache =
      if maxCacheSize < (purgeSurvivors now cache).length then
        (sSort newerFirst (purgeSurvivors now cache)).take maxCacheSize
      else purgeSurvivors now cache := rfl

theorem cleanupCache_length_le (now : Nat) (cache : List (Str × Entry)) :
    (cleanupCache now cache).length ≤ maxCacheSize := by
  rw [cleanupCache_eq]
  by_cases h : maxCacheSize < (purgeSurvivors now cache).length
  · rw [if_pos h]
    exact (List.length_take _ _).trans_le (Nat.min_le_left _ _)
  · rw [if_neg h]
    omega

theorem cleanupCache_overflow (now : Nat) (cache : List (Str × Entry))
    (h : maxCacheSize < (purgeSurvivors now cache).length) :
    (cleanupCache now cache).length = maxCacheSize ∧
    ∀ p ∈ cleanupCache now cache, ∀ q ∈ purgeSurvivors now cache,
      q ∉ cleanupCache now cache → q.2.timestamp ≤ p.2.timestamp := by
  have hperm := sSort_perm newerFirst (purgeSurvivors now cache)
  have hlen : (sSort newerFirst (purgeSurvivors now cache)).length
      = (purgeSurvivors now cache).length := hperm.length_eq
  have hclean : cleanupCache now cache
      = (sSort newerFirst (purgeSurvivors now cache)).take maxCacheSize := by
    rw [cleanupCache_eq, if_pos h]
  constructor
  · rw [hclean, List.length_take, hlen]
    omega
  · intro p hp q hq hqn
    set l := sSort newerFirst (purgeSurvivors now cache) with hl
    have hpair : l.Pairwise (fun a b => newerFirst a b = true) :=
      sSort_pairwise newerFirst_total newerFirst_trans _
    have hsplit : l = l.take maxCacheSize ++ l.drop maxCacheSize :=
      (List.take_append_drop maxCacheSize l).symm
    have hcross := (List.pairwise_append.mp (hsplit ▸ hpair)).2.2
    have hql : q ∈ l := hperm.mem_iff.mpr hq
    have hqdrop : q ∈ l.drop maxCacheSize := by
      rcases List.mem_append.mp (hsplit ▸ hql) with h1 | h1
      · exact absurd (hclean ▸ h1) hqn
      · exact h1
    have := hcross p (hclean ▸ hp) q hqdrop
    unfold newerFirst at this
    simpa using this

theorem mem_cacheResult {now : Nat} {cache : List (Str × Entry)} {k : Str} {e : Entry}
    {p : Str × Entry} (hp : p ∈ cacheResult now cache k e) : p ∈ mapSet cache k e := by
  unfold cacheResult at hp
  rw [cleanupCache_eq] at hp
  by_cases h : maxCacheSize < (purgeSurvivors now (mapSet cache k e)).length
  · rw [if_pos h] at hp
    have h1 := (sSort_perm newerFirst _).mem_iff.mp (List.take_subset _ _ hp)
    exact List.mem_filter.mp h1 |>.1
  · rw [if_neg h] at hp
    exact List.mem_filter.mp hp |>.1

theorem cacheResult_length_fresh {now : Nat} {cache : List (Str × Entry)} {k : Str}
    {e : Entry} (hfresh : ∀ p ∈ cache, now - p.2.timestamp ≤ cacheMaxAge)
    (hefresh : now - e.timestamp ≤ cacheMaxAge)
    (hhas : mapHas cache k = false) (hle : cache.length ≤ maxCacheSize) :
    (cacheResult now cache k e).length = min (cache.length + 1) maxCacheSize := by
  have hall : ∀ p ∈ mapSet cache k e, now - p.2.timestamp ≤ cacheMaxAge := by
    intro p hp
    rcases mem_mapSet hp with h1 | h1
    · rw [h1]; exact hefresh
    · exact hfresh p h1
  have hpurge : purgeSurvivors now (mapSet cache k e) = mapSet cache k e := by
    unfold purgeSurvivors
    apply List.filter_eq_self.mpr
    intro p hp
    have := hall p hp
    simp only [decide_eq_true_eq]
    omega
  have hsetlen : (mapSet cache k e).length = cache.length + 1 :=
    mapSet_length_of_not_has e hhas
  unfold cacheResult
  rw [cleanupCache_eq, hpurge, hsetlen]
  by_cases h : maxCacheSize < cache.length + 1
  · rw [if_pos h, List.length_take, (sSort_perm newerFirst _).length_eq, hsetlen]
    omega
  · rw [if_neg h]
    omega

theorem foldPut_length (now : Nat) (e : Str → Entry)
    (hef : ∀ k, now - (e k).timestamp ≤ cacheMaxAge) :
    ∀ (ks : List Str) (cache : List (Str × Entry)),
      (∀ p ∈ cache, now - p.2.timestamp ≤ cacheMaxAge) →
      (∀ k ∈ ks, ∀ p ∈ cache, p.1 ≠ k) →
      ks.Nodup →
      cache.length ≤ maxCacheSize →
      (ks.foldl (fun c k => cacheResult now c k (e k)) cache).length
        = min (cache.length + ks.length) maxCacheSize := by
  intro ks
  induction ks with
  | nil =>
    intro cache _ _ _ hle
    simp
    omega
  | cons k ks ih =>
    intro cache hfresh hdisj hnd hle
    have hknotin : ∀ p ∈ cache, p.1 ≠ k := hdisj k (List.mem_cons_self k ks)
    have hhas : mapHas cache k = false := (mapHas_eq_false_iff cache k).mpr hknotin
    have hlen1 : (cacheResult now cache k (e k)).length = min (cache.length + 1) maxCacheSize :=
      cacheResult_length_fresh hfresh (hef k) hhas hle
    have hfresh1 : ∀ p ∈ cacheResult now cache k (e k), now - p.2.timestamp ≤ cacheMaxAge := by
      intro p hp
      rcases mem_mapSet (mem_cacheResult hp) with h1 | h1
      · rw [h1]; exact hef k
      · exact hfresh p h1
    have hdisj1 : ∀ k2 ∈ ks, ∀ p ∈ cacheResult now cache k (e k), p.1 ≠ k2 := by
      intro k2 hk2 p hp
      rcases mem_mapSet (mem_cacheResult hp) with h1 | h1
      · rw [h1]
        intro hkk
        have hk2k : k = k2 := hkk
        rw [hk2k] at hnd
        exact (List.nodup_cons.mp hnd).1 hk2
      · exact hdisj k2 (List.mem_cons_of_mem k hk2) p h1
    have hle1 : (cacheResult now cache k (e k)).length ≤ maxCacheSize := by
      rw [hlen1]
      exact Nat.min_le_right _ _
    have := ih (cacheResult now cache k (e k)) hfresh1 hdisj1 (List.nodup_cons.mp hnd).2 hle1
    rw [List.foldl_cons, this, hlen1]
    simp only [List.length_cons]
    omega

/-- C3 (amended): for the desktop `cleanupCache`, after any insertion the
cleaned cache holds at most `maxCacheSize` (20) entries; whenever the purge
survivors exceed the bound, exactly 20 entries remain and every retained
entry's creation timestamp is at least every evicted survivor's (stable LRU by
creation time); and inserting at least 20 distinct unexpired keys into an
empty cache leaves exactly 20 entries.  (The mobile cache instead evicts the
earliest-inserted key; see the counterexample.) -/
theorem c3_desktop_cache_bound :
    (∀ (now : Nat) (cache : List (Str × Entry)),
      (cleanupCache now cache).length ≤ maxCacheSize) ∧
    (∀ (now : Nat) (cache : List (Str × Entry)),
      maxCacheSize < (purgeSurvivors now cache).length →
      (cleanupCache now cache).length = maxCacheSize ∧
      ∀ p ∈ cleanupCache now cache, ∀ q ∈ purgeSurvivors now cache,
        q ∉ cleanupCache now cache → q.2.timestamp ≤ p.2.timestamp) ∧
    (∀ (ks : List Str) (now : Nat) (e : Str → Entry),
      (∀ k, now - (e k).timestamp ≤ cacheMaxAge) →
      ks.Nodup → maxCacheSize ≤ ks.length →
      (ks.foldl (fun c k => cacheResult now c k (e k)) []).length = maxCacheSize) := by
  refine ⟨cleanupCache_length_le, cleanupCache_overflow, ?_⟩
  intro ks now e hef hnd hge
  have := foldPut_length now e hef ks [] (by intro p hp; cases hp)
    (by intro k _ p hp; cases hp) hnd (by simp)
  rw [this]
  simp
  omega

/-- Witness for `c3_desktop_cache_bound`: folding 21 distinct fresh keys into
the empty desktop cache leaves exactly 20 entries. -/
theorem c3_desktop_cache_bound_witness :
    (((List.range 21).map (fun i => ([i] : Str))).foldl
        (fun c k => cacheResult 1000 c k ⟨[], Source.llm, 1000, 0⟩) []).length = maxCacheSize :=
  c3_desktop_cache_bound.2.2 ((List.range 21).map (fun i => [i])) 1000
    (fun _ => ⟨[], Source.llm, 1000, 0⟩)
    (fun k => by show 1000 - 1000 ≤ cacheMaxAge; decide) (by decide) (by decide)

/-- Mobile cache with 20 entries, key `[i]` created at time `i + 1`. -/
def c3MBase : List (Str × MEntry) := (List.range 20).map (fun i => ([i], ⟨[], i + 1, 0⟩))

/-- `c3MBase` after overwriting key `[0]` at time 100: the entry keeps its
first position in insertion order but is now the newest by creation. -/
def c3MOverwritten : List (Str × MEntry) := mobileCachePut 100 0 c3MBase [0] [strLit "because"]

/-- `c3MOverwritten` after inserting the fresh 21st key `[20]` at time 101. -/
def c3MFinal : List (Str × MEntry) := mobileCachePut 101 0 c3MOverwritten [20] [strLit "because"]

/-- C3 is false as stated for the mobile transcriber:
`MobileSpeechTranscriber.cacheSuggestions` evicts the earliest-inserted key
(`suggestionCache.keys().next().value`), not the oldest-by-creation.  After
overwriting key `[0]` (making it the second-newest entry by creation, time
100) and then inserting a 21st key, the evicted entry is `[0]` even though 19
retained entries are older by creation (e.g. key `[1]`, created at time 2). -/
theorem c3_mobile_eviction_counterexample :
    c3MOverwritten.length = 20 ∧
    mapGet c3MOverwritten [0] = some ⟨[strLit "because"], 100, 0⟩ ∧
    (∀ p ∈ c3MOverwritten, p.2.timestamp ≤ 100) ∧
    c3MFinal.length = 20 ∧
    mapHas c3MFinal [0] = false ∧
    mapGet c3MFinal [1] = some ⟨[], 2, 0⟩ := by
  refine ⟨by decide, by decide, ?_, by decide, by decide, by decide⟩
  decide

/-- Text used by the C1 counterexample trace. -/
def c1Text : Str := strLit "plan a trip"

/-- State after the prefetch path started a call for `c1Text`. -/
def c1AfterPrefetch : DState := prefetchStart 0 c1Text initDState

/-- State after the pause timer then fired for the same text while the
prefetch call is still outstanding. -/
def c1AfterPause : DState := pauseFire 1 c1Text c1AfterPrefetch

/-- C1 is false as stated: with a prefetch call for the key of "plan a trip"
in flight (and registered in `activePrefetchCalls`), the pause path
(`showCachedSuggestions` → `triggerLLMSuggestions`) starts a second remote
call for the same key, because `triggerLLMSuggestions` never consults the
pending-call registry — two simultaneous remote calls for one key result. -/
theorem c1_second_call_counterexample :
    inFlightForKey c1AfterPrefetch (desktopKey c1Text) = 1 ∧
    c1AfterPrefetch.activePrefetchCalls = [desktopKey c1Text] ∧
    inFlightForKey c1AfterPause (desktopKey c1Text) = 2 ∧
    c1AfterPause.inFlight =
      [⟨0, CallKind.prefetch, c1Text⟩, ⟨1, CallKind.pause, c1Text⟩] := by
  refine ⟨by decide, by decide, by decide, by decide⟩

/-- C1 (amended): the prefetch path does consult the pending-call registry —
`prefetchSuggestions` starts no second call for a key already registered in
`activePrefetchCalls` — while the pause path is guarded only by the global
`isProcessingLLM` flag: `triggerLLMSuggestions` starts no call while any
pause-path call is processing, but it never consults the registry, so a
prefetch call and a pause-path call for the same key can be outstanding
simultaneously (see the counterexample). -/
theorem c1_dedup_per_path :
    (∀ (now : Nat) (text : Str) (s : DState),
      s.activePrefetchCalls.contains (desktopKey text) = true →
      prefetchStart now text s = s) ∧
    (∀ (text : Str) (s : DState),
      s.isProcessingLLM = true → triggerLLMStart text s = s) := by
  constructor
  · intro now text s h
    unfold prefetchStart
    by_cases h3 : desktopWordCount text < 3
    · rw [if_pos h3]
    · rw [if_neg h3]
      by_cases hv : isCacheValid s.cache now (desktopKey text) = true
      · rw [if_pos hv]
      · rw [if_neg (by simpa using hv), if_pos h]
  · intro text s h
    unfold triggerLLMStart
    rw [if_pos (Or.inl h)]

/-- Witness for `c1_dedup_per_path`: with the key of "plan a trip" already
registered, a second prefetch request is a no-op, and with a pause call
processing, a second pause trigger is a no-op. -/
theorem c1_dedup_per_path_witness :
    prefetchStart 5 c1Text
        { initDState with activePrefetchCalls := [desktopKey c1Text] } =
      { initDState with activePrefetchCalls := [desktopKey c1Text] } ∧
    triggerLLMStart c1Text { initDState with isProcessingLLM := true } =
      { initDState with isProcessingLLM := true } :=
  ⟨c1_dedup_per_path.1 5 c1Text
      { initDState with activePrefetchCalls := [desktopKey c1Text] } (by decide),
    c1_dedup_per_path.2 c1Text { initDState with isProcessingLLM := true } rfl⟩

/-- The two-update burst used by the C5 counterexample: a qualifying text at
time 0, then a blank update 100 ms later (the transcript shrinking to empty is
an ordinary interim-recognition event). -/
def c5Burst : List (Nat × Str) := [(0, strLit "hello world"), (100, strLit "")]

/-- C5 is false as stated: in the burst `c5Burst` (two updates 100 ms < 200 ms
apart), the second update fails `triggerPrefetch`'s gate and returns before
the `clearTimeout`, leaving the first update's timer running.  The one
prefetch that executes fires at 200 ms — not after a full uninterrupted delay
after the last update (which would be 300 ms) — and uses the first update's
text, not the last update's. -/
theorem c5_stale_timer_counterexample :
    IsBurst prefetchDebounceDelay c5Burst ∧
    runPrefetchDebounce prefetchDebounceDelay none c5Burst 1000 =
      [(200, strLit "hello world")] ∧
    (200, strLit "hello world") ≠ (100 + prefetchDebounceDelay, strLit "") :=
  ⟨by decide, by decide, by decide⟩

theorem gapsOK_cons_cons {delay tp t : Nat} {xp x : Str} {rest : List (Nat × Str)}
    (h : gapsOK delay ((tp, xp) :: (t, x) :: rest) = true) :
    tp < t ∧ t - tp < delay ∧ gapsOK delay ((t, x) :: rest) = true := by
  unfold gapsOK at h
  simp only [Bool.and_eq_true, decide_eq_true_eq] at h
  exact ⟨h.1.1, h.1.2, h.2⟩

theorem runPrefetchDebounce_aux (delay : Nat) :
    ∀ (updates : List (Nat × Str)) (tp : Nat) (xp : Str) (tEnd : Nat),
      gapsOK delay ((tp, xp) :: updates) = true →
      (∀ u ∈ updates, desktopPrefetchGate u.2 = true) →
      runPrefetchDebounce delay (some ⟨tp + delay, xp⟩) updates tEnd =
        if (updates.getLastD (tp, xp)).1 + delay ≤ tEnd then
          [((updates.getLastD (tp, xp)).1 + delay, (updates.getLastD (tp, xp)).2)]
        else [] := by
  intro updates
  induction updates with
  | nil =>
    intro tp xp tEnd hchain hgate
    show (if tp + delay ≤ tEnd then [(tp + delay, xp)] else []) = _
    rfl
  | cons u rest ih =>
    intro tp xp tEnd hchain hgate
    obtain ⟨t, x⟩ := u
    obtain ⟨hlt, hgap, hchain2⟩ := gapsOK_cons_cons hchain
    have hnofire : ¬ tp + delay ≤ t := by omega
    have hgatex : desktopPrefetchGate x = true := hgate (t, x) (List.mem_cons_self _ _)
    have hstep : triggerPrefetchStep delay (some ⟨tp + delay, xp⟩) t x = some ⟨t + delay, x⟩ := by
      unfold triggerPrefetchStep
      rw [if_pos hgatex]
    show (if tp + delay ≤ t then _ else
        runPrefetchDebounce delay (triggerPrefetchStep delay (some ⟨tp + delay, xp⟩) t x) rest tEnd) = _
    rw [if_neg hnofire, hstep,
      ih t x tEnd hchain2 (fun u hu => hgate u (List.mem_cons_of_mem _ hu)),
      List.getLastD_cons]

theorem runMobileDebounce_aux (delay : Nat) :
    ∀ (updates : List (Nat × Str)) (tp : Nat) (xp : Str) (tEnd : Nat),
      gapsOK delay ((tp, xp) :: updates) = true →
      3 ≤ mobileWordCount xp →
      (∀ u ∈ updates, 3 ≤ mobileWordCount u.2) →
      runMobileDebounce delay (some ⟨tp + delay, xp⟩) updates tEnd =
        if (updates.getLastD (tp, xp)).1 + delay ≤ tEnd then
          [((updates.getLastD (tp, xp)).1 + delay, (updates.getLastD (tp, xp)).2)]
        else [] := by
  intro updates
  induction updates with
  | nil =>
    intro tp xp tEnd hchain hxp hgate
    show (if tp + delay ≤ tEnd then mobileFireEmits ⟨tp + delay, xp⟩ else []) = _
    have hfe : mobileFireEmits ⟨tp + delay, xp⟩ = [(tp + delay, xp)] := by
      unfold mobileFireEmits
      rw [if_pos hxp]
    rw [hfe]
    rfl
  | cons u rest ih =>
    intro tp xp tEnd hchain hxp hgate
    obtain ⟨t, x⟩ := u
    obtain ⟨hlt, hgap, hchain2⟩ := gapsOK_cons_cons hchain
    have hnofire : ¬ tp + delay ≤ t := by omega
    show (if tp + delay ≤ t then _ else
        runMobileDebounce delay (mobileDebounceStep delay (some ⟨tp + delay, xp⟩) t x) rest tEnd) = _
    rw [if_neg hnofire]
    show runMobileDebounce delay (some ⟨t + delay, x⟩) rest tEnd = _
    rw [ih t x tEnd hchain2 (hgate (t, x) (List.mem_cons_self _ _))
        (fun u hu => hgate u (List.mem_cons_of_mem _ hu)),
      List.getLastD_cons]

/-- C5 (amended): for a burst of updates less than `prefetchDebounceDelay`
(200 ms) apart in which every update passes the respective prefetch gate
(desktop `triggerPrefetch`: non-blank text of length at least 3; mobile timer
callback: at least 3 words), exactly one prefetch executes, it executes
exactly one full uninterrupted delay after the last update, and it carries the
last update's text.  An update failing the desktop gate instead leaves the
previous timer running (see the counterexample). -/
theorem c5_debounce_collapsing :
    (∀ (t0 : Nat) (x0 : Str) (rest : List (Nat × Str)) (tEnd : Nat),
      gapsOK prefetchDebounceDelay ((t0, x0) :: rest) = true →
      desktopPrefetchGate x0 = true →
      (∀ u ∈ rest, desktopPrefetchGate u.2 = true) →
      runPrefetchDebounce prefetchDebounceDelay none ((t0, x0) :: rest) tEnd =
        if (rest.getLastD (t0, x0)).1 + prefetchDebounceDelay ≤ tEnd then
          [((rest.getLastD (t0, x0)).1 + prefetchDebounceDelay, (rest.getLastD (t0, x0)).2)]
        else []) ∧
    (∀ (t0 : Nat) (x0 : Str) (rest : List (Nat × Str)) (tEnd : Nat),
      gapsOK prefetchDebounceDelay ((t0, x0) :: rest) = true →
      3 ≤ mobileWordCount x0 →
      (∀ u ∈ rest, 3 ≤ mobileWordCount u.2) →
      runMobileDebounce prefetchDebounceDelay none ((t0, x0) :: rest) tEnd =
        if (rest.getLastD (t0, x0)).1 + prefetchDebounceDelay ≤ tEnd then
          [((rest.getLastD (t0, x0)).1 + prefetchDebounceDelay, (rest.getLastD (t0, x0)).2)]
        else []) := by
  constructor
  · intro t0 x0 rest tEnd hchain hg0 hgate
    have hstep : triggerPrefetchStep prefetchDebounceDelay none t0 x0 = some ⟨t0 + prefetchDebounceDelay, x0⟩ := by
      unfold triggerPrefetchStep
      rw [if_pos hg0]
    show runPrefetchDebounce prefetchDebounceDelay (triggerPrefetchStep prefetchDebounceDelay none t0 x0) rest tEnd = _
    rw [hstep, runPrefetchDebounce_aux prefetchDebounceDelay rest t0 x0 tEnd hchain hgate]
  · intro t0 x0 rest tEnd hchain hg0 hgate
    show runMobileDebounce prefetchDebounceDelay (mobileDebounceStep prefetchDebounceDelay none t0 x0) rest tEnd = _
    show runMobileDebounce prefetchDebounceDelay (some ⟨t0 + prefetchDebounceDelay, x0⟩) rest tEnd = _
    rw [runMobileDebounce_aux prefetchDebounceDelay rest t0 x0 tEnd hchain hg0 hgate]

/-- Witness for `c5_debounce_collapsing`: a three-update burst (the example
scenario of the specification) collapses to exactly one prefetch at 300 ms
carrying the final text, on both transcribers. -/
theorem c5_debounce_collapsing_witness :
    runPrefetchDebounce prefetchDebounceDelay none
        [(0, strLit "one two"), (50, strLit "one two three"), (100, strLit "one two three four")] 1000 =
      [(300, strLit "one two three four")] ∧
    runMobileDebounce prefetchDebounceDelay none
        [(0, strLit "one two three"), (50, strLit "one two three four"), (100, strLit "one two three four five")] 1000 =
      [(300, strLit "one two three four five")] := by
  constructor
  · rw [c5_debounce_collapsing.1 0 (strLit "one two")
      [(50, strLit "one two three"), (100, strLit "one two three four")] 1000
      (by decide) (by decide) (by decide)]
    decide
  · rw [c5_debounce_collapsing.2 0 (strLit "one two three")
      [(50, strLit "one two three four"), (100, strLit "one two three four five")] 1000
      (by decide) (by decide) (by decide)]
    decide

/-! Word counts are invariant under key normalization. -/

theorem trimLeft_trimLeft (s : Str) : trimLeft (trimLeft s) = trimLeft s := by
  unfold trimLeft
  rw [List.dropWhile_idempotent]

theorem trimRight_trimRight (s : Str) : trimRight (trimRight s) = trimRight s := by
  unfold trimRight
  rw [List.reverse_reverse, List.dropWhile_idempotent]

theorem head_not_ws_of_trimLeft_fixed {a : Nat} {t : Str}
    (h : trimLeft (a :: t) = a :: t) : isWs a = false := by
  have h2 : List.dropWhile isWs (a :: t) = a :: t := h
  have h3 := List.dropWhile_eq_self_iff.mp h2 (by simp)
  simpa using h3

theorem trimLeft_trimRight_of_fixed {s : Str} (h : trimLeft s = s) :
    trimLeft (trimRight s) = trimRight s := by
  cases s with
  | nil => rfl
  | cons a t =>
    have ha : isWs a = false := head_not_ws_of_trimLeft_fixed h
    have hna : ¬ isWs a = true := by rw [ha]; exact Bool.false_ne_true
    have hrev : (a :: t).reverse = t.reverse ++ [a] := by simp
    by_cases he : (List.dropWhile isWs t.reverse).isEmpty = true
    · have htr : trimRight (a :: t) = [a] := by
        unfold trimRight
        rw [hrev, List.dropWhile_append, if_pos he, List.dropWhile_cons, if_neg hna]
        rfl
      rw [htr]
      unfold trimLeft
      rw [List.dropWhile_cons, if_neg hna]
    · have htr : trimRight (a :: t) = a :: (List.dropWhile isWs t.reverse).reverse := by
        unfold trimRight
        rw [hrev, List.dropWhile_append, if_neg he, List.reverse_append]
        rfl
      rw [htr]
      unfold trimLeft
      rw [List.dropWhile_cons, if_neg hna]

theorem trimStr_trimStr (s : Str) : trimStr (trimStr s) = trimStr s := by
  unfold trimStr
  rw [trimLeft_trimRight_of_fixed (trimLeft_trimLeft s), trimRight_trimRight]

theorem countRunsAux_toLowerStr : ∀ (b : Bool) (s : Str),
    countRunsAux b (toLowerStr s) = countRunsAux b s := by
  intro b s
  induction s generalizing b with
  | nil => rfl
  | cons c t ih =>
    show countRunsAux b (jsToLower c :: toLowerStr t) = _
    unfold countRunsAux
    rw [isWs_jsToLower]
    by_cases h : isWs c = true
    · rw [h]
      simp only [if_true]
      exact ih false
    · rw [Bool.eq_false_iff.mpr h]
      simp only [Bool.false_eq_true, if_false]
      rw [ih true]

theorem trimStr_desktopKey (t : Str) : trimStr (desktopKey t) = desktopKey t := by
  unfold desktopKey
  rw [trimStr_toLowerStr, trimStr_trimStr]

theorem desktopWordCount_desktopKey (t : Str) :
    desktopWordCount (desktopKey t) = desktopWordCount t := by
  unfold desktopWordCount
  rw [trimStr_desktopKey]
  unfold desktopKey
  by_cases h : trimStr t = []
  · rw [h]
    simp [toLowerStr]
  · have hL : ¬ toLowerStr (trimStr t) = [] := by
      intro hc
      exact h (List.map_eq_nil_iff.mp hc)
    rw [if_neg hL, if_neg h]
    exact countRunsAux_toLowerStr false (trimStr t)

/-- The word-gate invariant of the desktop engine: every cache key and every
text of an outstanding prefetch call has at least 3 words. -/
def WordGateInv (s : DState) : Prop :=
  (∀ p ∈ s.cache, 3 ≤ desktopWordCount p.1) ∧
  (∀ c ∈ s.inFlight, c.kind = CallKind.prefetch → 3 ≤ desktopWordCount c.text)

theorem wordGateInv_init : WordGateInv initDState := by
  constructor
  · intro p hp; cases hp
  · intro c hc; cases hc

/-- C6: on the desktop transcriber, a transcript text with fewer than 3 words
triggers nothing: the prefetch path (`prefetchSuggestions`) returns before
touching the cache, registry, network or display, and the pause path
(`showCachedSuggestions`) misses the cache (under the word-gate invariant, no
entry is keyed by a text of fewer than 3 words) and then falls into its
do-nothing branch, so the whole state — remote calls and displayed
suggestions included — is unchanged. -/
theorem c6_word_gate (s : DState) (now : Nat) (text : Str)
    (hinv : WordGateInv s) (hwc : desktopWordCount text < 3) :
    prefetchStart now text s = s ∧ pauseFire now text s = s := by
  constructor
  · unfold prefetchStart
    rw [if_pos hwc]
  · have hkey : mapGet s.cache (desktopKey text) = none := by
      unfold mapGet
      rw [List.find?_eq_none.mpr]
      · rfl
      · intro p hp
        simp only [decide_eq_true_eq]
        intro hk
        have h3 := hinv.1 p hp
        rw [hk, desktopWordCount_desktopKey] at h3
        omega
    unfold pauseFire
    simp only [hkey]
    rw [if_neg (by omega)]

theorem displaySuggestions_core (xs : List Str) (s : DState) :
    (displaySuggestions xs s).cache = s.cache ∧ (displaySuggestions xs s).inFlight = s.inFlight := by
  unfold displaySuggestions showLastValid
  repeat' split
  all_goals exact ⟨rfl, rfl⟩

theorem maybeUpdateDisplayed_core (text : Str) (xs : List Str) (s : DState) :
    (maybeUpdateDisplayed text xs s).cache = s.cache ∧
    (maybeUpdateDisplayed text xs s).inFlight = s.inFlight := by
  unfold maybeUpdateDisplayed
  split
  · exact displaySuggestions_core xs s
  · exact ⟨rfl, rfl⟩

theorem wordGateInv_displaySuggestions {s : DState} (hinv : WordGateInv s) (xs : List Str) :
    WordGateInv (displaySuggestions xs s) := by
  obtain ⟨hc, hf⟩ := displaySuggestions_core xs s
  exact ⟨by rw [hc]; exact hinv.1, by rw [hf]; exact hinv.2⟩

theorem wordGateInv_showLastValid {s : DState} (hinv : WordGateInv s) :
    WordGateInv (showLastValid s) := by
  unfold showLastValid
  repeat' split
  all_goals exact hinv

theorem wordGateInv_triggerLLMStart {s : DState} (hinv : WordGateInv s) (text : Str) :
    WordGateInv (triggerLLMStart text s) := by
  unfold triggerLLMStart
  repeat' split
  any_goals exact hinv
  constructor
  · exact hinv.1
  · intro c hc hk
    rcases List.mem_append.mp hc with h1 | h1
    · exact hinv.2 c h1 hk
    · rw [List.mem_singleton.mp h1] at hk
      cases hk

/-- Invariant preservation: every transition of the desktop model keeps the
word-gate invariant, so it holds in every reachable state (it holds in
`initDState` by `wordGateInv_init`). -/
theorem wordGateInv_preserved (s : DState) (hinv : WordGateInv s) :
    (∀ now text, WordGateInv (prefetchStart now text s)) ∧
    (∀ now text, WordGateInv (pauseFire now text s)) ∧
    (∀ text, WordGateInv (transcriptUpdate text s)) ∧
    (∀ now cid outcome r lat, WordGateInv (prefetchResolve now cid outcome r lat s)) ∧
    (∀ cid outcome r, WordGateInv (pauseResolve cid outcome r s)) := by
  refine ⟨?_, ?_, ?_, ?_, ?_⟩
  · intro now text
    unfold prefetchStart
    repeat' split
    any_goals exact hinv
    rename_i hwc3 hvalid hcont
    constructor
    · exact hinv.1
    · intro c hc hk
      rcases List.mem_append.mp hc with h1 | h1
      · exact hinv.2 c h1 hk
      · rw [List.mem_singleton.mp h1]
        show 3 ≤ desktopWordCount text
        omega
  · intro now text
    unfold pauseFire
    repeat' split
    any_goals exact hinv
    any_goals exact wordGateInv_showLastValid hinv
    any_goals exact wordGateInv_triggerLLMStart hinv text
    any_goals exact wordGateInv_displaySuggestions hinv _
  · intro text
    unfold transcriptUpdate
    split
    · exact hinv
    · exact hinv
  · intro now cid outcome r lat
    unfold prefetchResolve
    split
    · exact hinv
    · rename_i c hfind
      split
      · exact hinv
      · rename_i hkind
        have hcmem : c ∈ s.inFlight := List.mem_of_find?_eq_some hfind
        have hck : c.kind = CallKind.prefetch := not_not.mp hkind
        have hwc3 : 3 ≤ desktopWordCount c.text := hinv.2 c hcmem hck
        have hkey3 : 3 ≤ desktopWordCount (desktopKey c.text) := by
          rw [desktopWordCount_desktopKey]
          exact hwc3
        have hsub : ∀ c2 ∈ s.inFlight.filter (fun c2 => decide (c2.id ≠ cid)),
            c2.kind = CallKind.prefetch → 3 ≤ desktopWordCount c2.text := by
          intro c2 hc2 hk2
          exact hinv.2 c2 (List.mem_filter.mp hc2).1 hk2
        cases outcome with
        | ok suggs =>
          obtain ⟨hcc, hff⟩ := maybeUpdateDisplayed_core c.text suggs
            { s with
              inFlight := s.inFlight.filter (fun c2 => decide (c2.id ≠ cid)),
              cache := cacheResult now s.cache (desktopKey c.text)
                ⟨suggs, Source.llm, now, lat⟩ }
          constructor
          · intro p hp
            show 3 ≤ desktopWordCount p.1
            have hp1 : p ∈ (maybeUpdateDisplayed c.text suggs
                { s with
                  inFlight := s.inFlight.filter (fun c2 => decide (c2.id ≠ cid)),
                  cache := cacheResult now s.cache (desktopKey c.text)
                    ⟨suggs, Source.llm, now, lat⟩ }).cache := hp
            rw [hcc] at hp1
            have hp2 : p ∈ cacheResult now s.cache (desktopKey c.text)
                ⟨suggs, Source.llm, now, lat⟩ := hp1
            rcases mem_mapSet (mem_cacheResult hp2) with h1 | h1
            · rw [h1]
              exact hkey3
            · exact hinv.1 p h1
          · intro c2 hc2 hk2
            have hc1 : c2 ∈ (maybeUpdateDisplayed c.text suggs
                { s with
                  inFlight := s.inFlight.filter (fun c2 => decide (c2.id ≠ cid)),
                  cache := cacheResult now s.cache (desktopKey c.text)
                    ⟨suggs, Source.llm, now, lat⟩ }).inFlight := hc2
            rw [hff] at hc1
            exact hsub c2 hc1 hk2
        | error _ =>
          obtain ⟨hcc, hff⟩ := maybeUpdateDisplayed_core c.text (getFallbackSuggestions c.text r)
            { s with
              inFlight := s.inFlight.filter (fun c2 => decide (c2.id ≠ cid)),
              cache := cacheResult now s.cache (desktopKey c.text)
                ⟨getFallbackSuggestions c.text r, Source.fallback, now, lat⟩ }
          constructor
          · intro p hp
            show 3 ≤ desktopWordCount p.1
            have hp1 : p ∈ (maybeUpdateDisplayed c.text (getFallbackSuggestions c.text r)
                { s with
                  inFlight := s.inFlight.filter (fun c2 => decide (c2.id ≠ cid)),
                  cache := cacheResult now s.cache (desktopKey c.text)
                    ⟨getFallbackSuggestions c.text r, Source.fallback, now, lat⟩ }).cache := hp
            rw [hcc] at hp1
            have hp2 : p ∈ cacheResult now s.cache (desktopKey c.text)
                ⟨getFallbackSuggestions c.text r, Source.fallback, now, lat⟩ := hp1
            rcases mem_mapSet (mem_cacheResult hp2) with h1 | h1
            · rw [h1]
              exact hkey3
            · exact hinv.1 p h1
          · intro c2 hc2 hk2
            have hc1 : c2 ∈ (maybeUpdateDisplayed c.text (getFallbackSuggestions c.text r)
                { s with
                  inFlight := s.inFlight.filter (fun c2 => decide (c2.id ≠ cid)),
                  cache := cacheResult now s.cache (desktopKey c.text)
                    ⟨getFallbackSuggestions c.text r, Source.fallback, now, lat⟩ }).inFlight := hc2
            rw [hff] at hc1
            exact hsub c2 hc1 hk2
  · intro cid outcome r
    unfold pauseResolve
    split
    · exact hinv
    · rename_i c hfind
      split
      · exact hinv
      · have hsub : ∀ c2 ∈ s.inFlight.filter (fun c2 => decide (c2.id ≠ cid)),
            c2.kind = CallKind.prefetch → 3 ≤ desktopWordCount c2.text := by
          intro c2 hc2 hk2
          exact hinv.2 c2 (List.mem_filter.mp hc2).1 hk2
        have hbase : WordGateInv
            { s with inFlight := s.inFlight.filter (fun c2 => decide (c2.id ≠ cid)) } :=
          ⟨hinv.1, hsub⟩
        cases outcome with
        | ok suggs =>
          obtain ⟨hcc, hff⟩ := displaySuggestions_core suggs
            { s with inFlight := s.inFlight.filter (fun c2 => decide (c2.id ≠ cid)) }
          exact ⟨by rw [hcc]; exact hbase.1, by rw [hff]; exact hbase.2⟩
        | error _ =>
          obtain ⟨hcc, hff⟩ := displaySuggestions_core (getFallbackSuggestions c.text r)
            { s with inFlight := s.inFlight.filter (fun c2 => decide (c2.id ≠ cid)) }
          exact ⟨by rw [hcc]; exact hbase.1, by rw [hff]; exact hbase.2⟩

/-- Witness for `c6_word_gate`: the two-word text "hello there" leaves the
initial state untouched on both paths. -/
theorem c6_word_gate_witness :
    prefetchStart 0 (strLit "hello there") initDState = initDState ∧
    pauseFire 0 (strLit "hello there") initDState = initDState :=
  c6_word_gate initDState 0 (strLit "hello there") wordGateInv_init (by decide)

/-! Visibility of a freshly written cache entry. -/

theorem mapGet_filter_append_of_not_has {V : Type} (keep : Str × V → Bool) :
    ∀ (m : List (Str × V)) (k : Str) (v : V), keep (k, v) = true →
      mapHas m k = false →
      mapGet ((m ++ [(k, v)]).filter keep) k = some v := by
  intro m
  induction m with
  | nil =>
    intro k v hk _
    unfold mapGet
    rw [List.nil_append, List.filter_cons, if_pos hk]
    simp
  | cons p rest ih =>
    intro k v hk hhas
    have hpk : p.1 ≠ k := by
      have := (mapHas_eq_false_iff (p :: rest) k).mp hhas
      exact this p (List.mem_cons_self _ _)
    have hhas' : mapHas rest k = false := by
      rw [mapHas_eq_false_iff]
      intro q hq
      exact (mapHas_eq_false_iff (p :: rest) k).mp hhas q (List.mem_cons_of_mem _ hq)
    rw [List.cons_append, List.filter_cons]
    by_cases hkp : keep p = true
    · rw [if_pos hkp]
      unfold mapGet
      rw [List.find?_cons, show decide (p.1 = k) = false from by simpa using hpk]
      exact ih k v hk hhas'
    · rw [if_neg hkp]
      exact ih k v hk hhas'

theorem mapGet_filter_map_of_has {V : Type} (keep : Str × V → Bool) :
    ∀ (m : List (Str × V)) (k : Str) (v : V), keep (k, v) = true →
      mapHas m k = true →
      mapGet ((m.map (fun p => if p.1 = k then (k, v) else p)).filter keep) k = some v := by
  intro m
  induction m with
  | nil =>
    intro k v _ hhas
    cases hhas
  | cons p rest ih =>
    intro k v hk hhas
    rw [List.map_cons]
    by_cases hpk : p.1 = k
    · rw [if_pos hpk, List.filter_cons, if_pos hk]
      unfold mapGet
      rw [List.find?_cons, show decide ((k, v).1 = k) = true from by simp]
      rfl
    · rw [if_neg hpk]
      have hhas' : mapHas rest k = true := by
        unfold mapHas at hhas ⊢
        rcases List.any_eq_true.mp hhas with ⟨q, hq, hqk⟩
        rcases List.mem_cons.mp hq with rfl | hq1
        · exact absurd (by simpa using hqk) hpk
        · exact List.any_eq_true.mpr ⟨q, hq1, hqk⟩
      rw [List.filter_cons]
      by_cases hkp : keep p = true
      · rw [if_pos hkp]
        unfold mapGet
        rw [List.find?_cons, show decide (p.1 = k) = false from by simpa using hpk]
        exact ih k v hk hhas'
      · rw [if_neg hkp]
        exact ih k v hk hhas'

/-- A fresh entry written through `cacheResult` into a cache that is below the
size bound is immediately visible under its key. -/
theorem mapGet_cacheResult_small {now : Nat} {cache : List (Str × Entry)} {k : Str}
    {e : Entry} (hsize : cache.length < maxCacheSize)
    (hef : now - e.timestamp ≤ cacheMaxAge) :
    mapGet (cacheResult now cache k e) k = some e := by
  have hkeep : (fun p : Str × Entry => decide (¬ cacheMaxAge < now - p.2.timestamp)) (k, e)
      = true := by
    simp only [decide_eq_true_eq]
    omega
  have hpurgelen : (purgeSurvivors now (mapSet cache k e)).length ≤ (mapSet cache k e).length :=
    List.length_filter_le _ _
  have hsetlen : (mapSet cache k e).length ≤ cache.length + 1 := by
    by_cases h : mapHas cache k = true
    · rw [mapSet_length_of_has e h]
      omega
    · rw [mapSet_length_of_not_has e (Bool.eq_false_iff.mpr h)]
  have hnoev : ¬ maxCacheSize < (purgeSurvivors now (mapSet cache k e)).length := by omega
  unfold cacheResult
  rw [cleanupCache_eq, if_neg hnoev]
  unfold purgeSurvivors
  by_cases h : mapHas cache k = true
  · rw [show mapSet cache k e = cache.map (fun p => if p.1 = k then (k, e) else p) from by
      unfold mapSet
      rw [if_pos h]]
    exact mapGet_filter_map_of_has _ cache k e hkeep h
  · rw [show mapSet cache k e = cache ++ [(k, e)] from by
      unfold mapSet
      rw [if_neg h]]
    exact mapGet_filter_append_of_not_has _ cache k e hkeep (Bool.eq_false_iff.mpr h)

theorem displaySuggestions_errors (xs : List Str) (s : DState) :
    (displaySuggestions xs s).errors = s.errors := by
  unfold displaySuggestions showLastValid
  repeat' split
  all_goals rfl

theorem maybeUpdateDisplayed_errors (text : Str) (xs : List Str) (s : DState) :
    (maybeUpdateDisplayed text xs s).errors = s.errors := by
  unfold maybeUpdateDisplayed
  split
  · exact displaySuggestions_errors xs s
  · rfl

theorem getFallbackSuggestions_ne_nil (text : Str) (r : Fin 5) :
    getFallbackSuggestions text r ≠ [] := by
  unfold getFallbackSuggestions
  fin_cases r <;> decide

/-- C7 is false as stated: the local fallback generator is not deterministic —
`getFallbackSuggestions` returns `fallbacks[Math.floor(Math.random() * 5)]`,
so for one and the same input text two draws of the random index yield two
different suggestion lists. -/
theorem c7_fallback_not_deterministic_counterexample :
    getFallbackSuggestions (strLit "planning a trip") 0 ≠
      getFallbackSuggestions (strLit "planning a trip") 1 := by
  decide

/-- C7 (amended): when a prefetch remote call fails, its resolution writes a
cache entry tagged `'fallback'` whose suggestion list is drawn from the fixed
static pool by the random index `r` (so it is fixed given the draw, though not
a function of the text alone) and is never empty; the entry is immediately
valid, so an identical failure within the TTL window is not retried (a new
prefetch for the same text is a no-op); and no error is surfaced to the user. -/
theorem c7_fallback_on_failure (s : DState) (now cid lat : Nat) (r : Fin 5) (c : Call)
    (hfind : s.inFlight.find? (fun c2 => decide (c2.id = cid)) = some c)
    (hkind : c.kind = CallKind.prefetch)
    (hsize : s.cache.length < maxCacheSize) :
    mapGet (prefetchResolve now cid (Except.error ()) r lat s).cache (desktopKey c.text)
        = some ⟨getFallbackSuggestions c.text r, Source.fallback, now, lat⟩ ∧
    getFallbackSuggestions c.text r ≠ [] ∧
    isCacheValid (prefetchResolve now cid (Except.error ()) r lat s).cache now
        (desktopKey c.text) = true ∧
    prefetchStart now c.text (prefetchResolve now cid (Except.error ()) r lat s)
        = prefetchResolve now cid (Except.error ()) r lat s ∧
    (prefetchResolve now cid (Except.error ()) r lat s).errors = s.errors := by
  have hstate : prefetchResolve now cid (Except.error ()) r lat s =
      dropActiveKey (desktopKey c.text)
        (maybeUpdateDisplayed c.text (getFallbackSuggestions c.text r)
          { s with inFlight := s.inFlight.filter (fun c2 => decide (c2.id ≠ cid)),
                   cache := cacheResult now s.cache (desktopKey c.text)
                     ⟨getFallbackSuggestions c.text r, Source.fallback, now, lat⟩ }) := by
    unfold prefetchResolve
    rw [hfind]
    show (if c.kind ≠ CallKind.prefetch then s else _) = _
    rw [if_neg (by simp [hkind])]
  have hcache : (prefetchResolve now cid (Except.error ()) r lat s).cache
      = cacheResult now s.cache (desktopKey c.text)
          ⟨getFallbackSuggestions c.text r, Source.fallback, now, lat⟩ := by
    rw [hstate]
    show (maybeUpdateDisplayed c.text (getFallbackSuggestions c.text r)
        { s with inFlight := s.inFlight.filter (fun c2 => decide (c2.id ≠ cid)),
                 cache := cacheResult now s.cache (desktopKey c.text)
                   ⟨getFallbackSuggestions c.text r, Source.fallback, now, lat⟩ }).cache = _
    rw [(maybeUpdateDisplayed_core _ _ _).1]
  have hget : mapGet (prefetchResolve now cid (Except.error ()) r lat s).cache
      (desktopKey c.text)
      = some ⟨getFallbackSuggestions c.text r, Source.fallback, now, lat⟩ := by
    rw [hcache]
    exact mapGet_cacheResult_small hsize (by simp)
  have hvalid : isCacheValid (prefetchResolve now cid (Except.error ()) r lat s).cache now
      (desktopKey c.text) = true := by
    unfold isCacheValid
    rw [hget]
    simp only [decide_eq_true_eq]
    show now - now < cacheMaxAge
    unfold cacheMaxAge
    omega
  refine ⟨hget, getFallbackSuggestions_ne_nil c.text r, hvalid, ?_, ?_⟩
  · unfold prefetchStart
    by_cases hwc : desktopWordCount c.text < 3
    · rw [if_pos hwc]
    · rw [if_neg hwc, hvalid, if_pos rfl]
  · rw [hstate]
    show (maybeUpdateDisplayed c.text (getFallbackSuggestions c.text r)
        { s with inFlight := s.inFlight.filter (fun c2 => decide (c2.id ≠ cid)),
                 cache := cacheResult now s.cache (desktopKey c.text)
                   ⟨getFallbackSuggestions c.text r, Source.fallback, now, lat⟩ }).errors = _
    rw [maybeUpdateDisplayed_errors]

/-- Desktop state with one outstanding prefetch call, used by the C7 witness. -/
def c7DemoState : DState :=
  { initDState with inFlight := [⟨0, CallKind.prefetch, strLit "plan a trip"⟩] }

/-- Witness for `c7_fallback_on_failure` at a concrete failed call. -/
theorem c7_fallback_on_failure_witness :
    mapGet (prefetchResolve 50 0 (Except.error ()) 0 7 c7DemoState).cache
        (desktopKey (strLit "plan a trip"))
      = some ⟨getFallbackSuggestions (strLit "plan a trip") 0, Source.fallback, 50, 7⟩ ∧
    (prefetchResolve 50 0 (Except.error ()) 0 7 c7DemoState).errors = [] :=
  ⟨(c7_fallback_on_failure c7DemoState 50 0 7 0 ⟨0, CallKind.prefetch, strLit "plan a trip"⟩
      (by decide) rfl (by decide)).1,
    (c7_fallback_on_failure c7DemoState 50 0 7 0 ⟨0, CallKind.prefetch, strLit "plan a trip"⟩
      (by decide) rfl (by decide)).2.2.2.2⟩

/-- Desktop state with persisted last-good suggestions and an empty cache,
used by the C8 counterexample. -/
def c8DemoState : DState :=
  { initDState with lastValid := some [strLit "and then"],
                    lastInterimText := strLit "plan a trip" }

/-- C8 is false as stated: when the pause timer fires with at least 3 words,
the cache misses and persisted last-good suggestions exist,
`showCachedSuggestions` only calls `showLastValidSuggestions` — it never
issues (or joins) a remote call: the in-flight call set stays empty. -/
theorem c8_no_remote_call_counterexample :
    mapGet c8DemoState.cache (desktopKey (strLit "plan a trip")) = none ∧
    3 ≤ desktopWordCount (strLit "plan a trip") ∧
    c8DemoState.lastValid = some [strLit "and then"] ∧
    pauseFire 2000 (strLit "plan a trip") c8DemoState
      = { c8DemoState with displayed := some [strLit "and then"], displayShown := true } ∧
    (pauseFire 2000 (strLit "plan a trip") c8DemoState).inFlight = [] :=
  ⟨by decide, by decide, by decide, by decide, by decide⟩

/-- C8 (amended): when the pause timer fires with at least 3 words, the cache
lookup misses (or is expired) and nonempty persisted last-good suggestions
exist, the controller shows the persisted suggestions immediately and issues
no remote call at all — the in-flight calls, the registry, the cache and the
`isProcessingLLM` flag are untouched; a fresh call is only triggered when no
persisted suggestions exist. -/
theorem c8_persisted_shown_without_call (s : DState) (now : Nat) (text : Str) (l : List Str)
    (hmiss : isCacheValid s.cache now (desktopKey text) = false)
    (hwc : 3 ≤ desktopWordCount text)
    (hlv : s.lastValid = some l) (hne : l ≠ []) :
    pauseFire now text s = { s with displayed := some l, displayShown := true } ∧
    (pauseFire now text s).inFlight = s.inFlight ∧
    (pauseFire now text s).activePrefetchCalls = s.activePrefetchCalls ∧
    (pauseFire now text s).cache = s.cache ∧
    (pauseFire now text s).isProcessingLLM = s.isProcessingLLM := by
  have hlen : 0 < l.length := List.length_pos.mpr hne
  have hshow : showLastValid s = { s with displayed := some l, displayShown := true } := by
    unfold showLastValid
    rw [hlv]
    show (if 0 < l.length then _ else s) = _
    rw [if_pos hlen]
  have hmain : pauseFire now text s = { s with displayed := some l, displayShown := true } := by
    unfold pauseFire
    cases hm : mapGet s.cache (desktopKey text) with
    | none =>
      show (if 3 ≤ desktopWordCount text then _ else s) = _
      rw [if_pos hwc, hlv]
      show (if 0 < l.length then showLastValid s else _) = _
      rw [if_pos hlen, hshow, hlv]
    | some cached =>
      rw [hmiss]
      show (if false = true then displaySuggestions cached.suggestions s
            else if 3 ≤ desktopWordCount text then
              (match s.lastValid with
                | some l2 => if 0 < l2.length then showLastValid s else triggerLLMStart text s
                | none => triggerLLMStart text s)
            else s) = _
      rw [if_neg Bool.false_ne_true, if_pos hwc, hlv]
      show (if 0 < l.length then showLastValid s else _) = _
      rw [if_pos hlen, hshow, hlv]
  rw [hmain]
  exact ⟨rfl, rfl, rfl, rfl, rfl⟩

/-- Witness for `c8_persisted_shown_without_call` at the concrete state of the
counterexample scenario. -/
theorem c8_persisted_shown_without_call_witness :
    pauseFire 2500 (strLit "book a flight") c8DemoState
      = { c8DemoState with displayed := some [strLit "and then"], displayShown := true } :=
  (c8_persisted_shown_without_call c8DemoState 2500 (strLit "book a flight")
    [strLit "and then"] (by decide) (by decide) (by decide) (by decide)).1

/-! C9 counterexample trace: a pause-path call for text A is started, text B
supersedes it and B's suggestions are displayed, then A's call resolves. -/

/-- First (superseded) text of the C9 trace. -/
def c9TextA : Str := strLit "plan a trip"

/-- Second (current) text of the C9 trace. -/
def c9TextB : Str := strLit "plan a trip to paris"

/-- Suggestions resolved for `c9TextA`. -/
def c9SuggsA : List Str := [strLit "when exactly?"]

/-- Suggestions resolved for `c9TextB`. -/
def c9SuggsB : List Str := [strLit "which city?"]

/-- Trace: update A; pause fires for A (pause call id 0 starts); update B;
prefetch starts for B (call id 1); B's prefetch resolves (cached and
displayed). -/
def c9BeforeStale : DState :=
  prefetchResolve 20 1 (Except.ok c9SuggsB) 0 5
    (prefetchStart 10 c9TextB
      (transcriptUpdate c9TextB
        (pauseFire 0 c9TextA
          (transcriptUpdate c9TextA initDState))))

/-- `c9BeforeStale` after the stale pause call for A finally resolves. -/
def c9AfterStale : DState := pauseResolve 0 (Except.ok c9SuggsA) 0 c9BeforeStale

/-- C9 is false as stated: the pause path's resolution
(`triggerLLMSuggestions`) calls `displaySuggestions` unconditionally and
writes nothing to the cache.  In the trace, B's suggestions are on display and
B is the current text, yet when the superseded call for A resolves, the
display is overwritten with A's suggestions — and A's result is not in the
cache either. -/
theorem c9_stale_pause_overwrite_counterexample :
    c9BeforeStale.displayed = some c9SuggsB ∧
    c9AfterStale.lastInterimText = c9TextB ∧
    desktopKey c9TextA ≠ desktopKey c9TextB ∧
    c9AfterStale.displayed = some c9SuggsA ∧
    mapGet c9AfterStale.cache (desktopKey c9TextA) = none :=
  ⟨by decide, by decide, by decide, by decide, by decide⟩

/-- C9 (amended): the guard holds on the prefetch path only.  When a prefetch
call resolves, its result is always written to the cache under the call's key,
and the displayed suggestions are mutated only if the call's key still matches
the current transcript text (`maybeUpdateDisplayedSuggestions`); a pause-path
resolution, by contrast, updates the display unconditionally and writes
nothing to the cache (see the counterexample). -/
theorem c9_prefetch_resolution_guarded (s : DState) (now cid lat : Nat)
    (suggs : List Str) (r : Fin 5) (c : Call)
    (hfind : s.inFlight.find? (fun c2 => decide (c2.id = cid)) = some c)
    (hkind : c.kind = CallKind.prefetch)
    (hsize : s.cache.length < maxCacheSize) :
    mapGet (prefetchResolve now cid (Except.ok suggs) r lat s).cache (desktopKey c.text)
        = some ⟨suggs, Source.llm, now, lat⟩ ∧
    ((prefetchResolve now cid (Except.ok suggs) r lat s).displayed ≠ s.displayed →
      desktopKey c.text = desktopKey s.lastInterimText) := by
  have hstate : prefetchResolve now cid (Except.ok suggs) r lat s =
      dropActiveKey (desktopKey c.text)
        (maybeUpdateDisplayed c.text suggs
          { s with inFlight := s.inFlight.filter (fun c2 => decide (c2.id ≠ cid)),
                   cache := cacheResult now s.cache (desktopKey c.text)
                     ⟨suggs, Source.llm, now, lat⟩ }) := by
    unfold prefetchResolve
    rw [hfind]
    show (if c.kind ≠ CallKind.prefetch then s else _) = _
    rw [if_neg (by simp [hkind])]
  constructor
  · have hcache : (prefetchResolve now cid (Except.ok suggs) r lat s).cache
        = cacheResult now s.cache (desktopKey c.text) ⟨suggs, Source.llm, now, lat⟩ := by
      rw [hstate]
      show (maybeUpdateDisplayed c.text suggs
          { s with inFlight := s.inFlight.filter (fun c2 => decide (c2.id ≠ cid)),
                   cache := cacheResult now s.cache (desktopKey c.text)
                     ⟨suggs, Source.llm, now, lat⟩ }).cache = _
      rw [(maybeUpdateDisplayed_core _ _ _).1]
    rw [hcache]
    exact mapGet_cacheResult_small hsize (by simp)
  · intro hne
    by_cases hcond :
        (({ s with inFlight := s.inFlight.filter (fun c2 => decide (c2.id ≠ cid)),
                   cache := cacheResult now s.cache (desktopKey c.text)
                     ⟨suggs, Source.llm, now, lat⟩ } : DState).displayShown = true ∧
          desktopKey c.text =
            desktopKey ({ s with
                inFlight := s.inFlight.filter (fun c2 => decide (c2.id ≠ cid)),
                cache := cacheResult now s.cache (desktopKey c.text)
                  ⟨suggs, Source.llm, now, lat⟩ } : DState).lastInterimText)
    · exact hcond.2
    · exfalso
      apply hne
      rw [hstate]
      show (maybeUpdateDisplayed c.text suggs
          { s with inFlight := s.inFlight.filter (fun c2 => decide (c2.id ≠ cid)),
                   cache := cacheResult now s.cache (desktopKey c.text)
                     ⟨suggs, Source.llm, now, lat⟩ }).displayed = s.displayed
      unfold maybeUpdateDisplayed
      rw [if_neg hcond]

/-- Desktop state with one outstanding prefetch call, used by the C9 witness. -/
def c9DemoState : DState :=
  { initDState with inFlight := [⟨0, CallKind.prefetch, strLit "plan a trip"⟩] }

/-- Witness for `c9_prefetch_resolution_guarded`: a concrete resolved prefetch
call is cached under its key. -/
theorem c9_prefetch_resolution_guarded_witness :
    mapGet (prefetchResolve 30 0 (Except.ok [strLit "with who?"]) 0 3 c9DemoState).cache
        (desktopKey (strLit "plan a trip"))
      = some ⟨[strLit "with who?"], Source.llm, 30, 3⟩ :=
  (c9_prefetch_resolution_guarded c9DemoState 30 0 3 [strLit "with who?"] 0
    ⟨0, CallKind.prefetch, strLit "plan a trip"⟩ (by decide) rfl (by decide)).1

/-- C10: when `llmConfig.isConfigured` is false, no network request is ever
issued.  The desktop `callLLMAPI` throws before building the request (so its
callers fall into their catch blocks, the local-fallback path); the mobile
`getLLMSuggestions` returns `null` before any fetch; consequently a mobile
trigger run emits no fetch effect ever, and — when it is not serving a
fresh cached entry — leaves the cache and the displayed suggestions unchanged;
a mobile prefetch run is a complete no-op with no fetch effect. -/
theorem c10_unconfigured_no_fetch (cfg : LLMConfig) (hcfg : cfg.isConfigured = false) :
    (∀ (text : Str) (remote : Except Unit (List Str)),
      desktopCallLLMAPI cfg text remote = (Except.error (), [])) ∧
    (∀ (text : Str) (remote : Except Unit (Option (List Str))),
      mobileGetLLMSuggestions cfg text remote = (Except.ok none, [])) ∧
    (∀ (remote : Except Unit (Option (List Str))) (now now2 : Nat) (text : Str) (s : MState),
      (mobileTriggerRun cfg remote now now2 text s).2 = []) ∧
    (∀ (remote : Except Unit (Option (List Str))) (now now2 : Nat) (text : Str) (s : MState),
      (∀ e, mapGet s.cache (mobileTriggerKey text) = some e →
        cacheMaxAge ≤ now - e.timestamp) →
      (mobileTriggerRun cfg remote now now2 text s).1.cache = s.cache ∧
      (mobileTriggerRun cfg remote now now2 text s).1.displayed = s.displayed) ∧
    (∀ (remote : Except Unit (Option (List Str))) (now2 : Nat) (text : Str) (s : MState),
      mobilePrefetchRun cfg remote now2 text s = (s, [])) := by
  have hnc : ¬ cfg.isConfigured = true := by
    rw [hcfg]
    exact Bool.false_ne_true
  have hdesk : ∀ (text : Str) (remote : Except Unit (List Str)),
      desktopCallLLMAPI cfg text remote = (Except.error (), []) := by
    intro text remote
    unfold desktopCallLLMAPI
    rw [if_pos hnc]
  have hmob : ∀ (text : Str) (remote : Except Unit (Option (List Str))),
      mobileGetLLMSuggestions cfg text remote = (Except.ok none, []) := by
    intro text remote
    unfold mobileGetLLMSuggestions
    rw [if_pos hnc]
  have hcall : ∀ (remote : Except Unit (Option (List Str))) (now now2 : Nat) (text : Str)
      (s : MState), mobileTriggerCall cfg remote now now2 text s
        = ({ s with isProcessingLLM := false, apiCallStartTime := some now }, []) := by
    intro remote now now2 text s
    unfold mobileTriggerCall
    rw [hmob text remote]
  refine ⟨hdesk, hmob, ?_, ?_, ?_⟩
  · intro remote now now2 text s
    unfold mobileTriggerRun
    split
    · rfl
    · split
      · rfl
      · split
        · split
          · rfl
          · rw [hcall]
        · rw [hcall]
  · intro remote now now2 text s hstale
    have hrun : (mobileTriggerRun cfg remote now now2 text s).1 = s ∨
        (mobileTriggerRun cfg remote now now2 text s).1
          = { s with isProcessingLLM := false, apiCallStartTime := some now } := by
      unfold mobileTriggerRun
      split
      · exact Or.inl rfl
      · split
        · exact Or.inl rfl
        · split
          · rename_i cached hm
            split
            · rename_i hfresh
              exact absurd (hstale cached hm) (by omega)
            · rw [hcall]
              exact Or.inr rfl
          · rw [hcall]
            exact Or.inr rfl
    rcases hrun with h | h
    · rw [h]
      exact ⟨rfl, rfl⟩
    · rw [h]
      exact ⟨rfl, rfl⟩
  · intro remote now2 text s
    unfold mobilePrefetchRun
    split
    · rfl
    · split
      · rfl
      · split
        · rfl
        · rw [show (mobileGetLLMSuggestions cfg text remote).1 = Except.ok none from by
            rw [hmob text remote]]
          rw [show (mobileGetLLMSuggestions cfg text remote).2 = [] from by
            rw [hmob text remote]]

/-- Witness for `c10_unconfigured_no_fetch` at the unconfigured configuration
and concrete inputs: no fetch effect, an error/`null` result, and an unchanged
mobile state. -/
theorem c10_unconfigured_no_fetch_witness :
    desktopCallLLMAPI ⟨false⟩ (strLit "plan a trip") (Except.ok [strLit "with who?"])
        = (Except.error (), []) ∧
    mobileGetLLMSuggestions ⟨false⟩ (strLit "plan a trip")
        (Except.ok (some [strLit "with who?"])) = (Except.ok none, []) ∧
    mobilePrefetchRun ⟨false⟩ (Except.ok (some [strLit "with who?"])) 100
        (strLit "plan a trip") initMState = (initMState, []) :=
  ⟨(c10_unconfigured_no_fetch ⟨false⟩ rfl).1 (strLit "plan a trip") (Except.ok [strLit "with who?"]),
    (c10_unconfigured_no_fetch ⟨false⟩ rfl).2.1 (strLit "plan a trip")
      (Except.ok (some [strLit "with who?"])),
    (c10_unconfigured_no_fetch ⟨false⟩ rfl).2.2.2.2 (Except.ok (some [strLit "with who?"])) 100
      (strLit "plan a trip") initMState⟩

end VoiceAutocomplete
